import Mathlib

/-!
Verification of the MS2000 SysEx codec (ms2000_core).

This file gives a shallow embedding of the byte-level codec found in
implementations/korg/ms2000/tools/lib/ms2000_core.py and proves the
spec-level claims about it.  Buffers are lists of byte values
(Nat, each < 256 where the source guarantees it); Python exceptions are
modelled with Except String; Python ints that can be negative are
modelled with Int.
-/

instance exceptDecidableEq {ε α : Type} [DecidableEq ε] [DecidableEq α] :
    DecidableEq (Except ε α) := fun x y =>
  match x, y with
  | .ok a, .ok b => if h : a = b then isTrue (by rw [h]) else isFalse (by simp [h])
  | .error a, .error b => if h : a = b then isTrue (by rw [h]) else isFalse (by simp [h])
  | .ok _, .error _ => isFalse (by simp)
  | .error _, .ok _ => isFalse (by simp)

namespace MS2000

def PATCH_SIZE : Nat := 254

/-! ## BitPacker: Korg 7-bit encoding (decode_korg_7bit / encode_korg_7bit) -/

/-- Inner loop of decode_korg_7bit: one group of up to seven data bytes
following an MSB byte; j is the index inside the group. -/
def decodeChunk (msb_byte : Nat) : List Nat → Nat → List Nat
  | [], _ => []
  | data_byte :: rest, j =>
      ((((msb_byte >>> (6 - j)) &&& 0x01) <<< 7) ||| (data_byte &&& 0x7F)) ::
        decodeChunk msb_byte rest (j + 1)

/-- Loop of decode_korg_7bit; each iteration consumes one MSB byte plus
min(7, remaining) data bytes.  The loop runs at most length iterations, so
it is written with that bound as structural fuel (the zero-fuel arm is
unreachable because every iteration consumes at least one byte). -/
def decodeGo : Nat → List Nat → List Nat
  | _, [] => []
  | 0, _ :: _ => []
  | fuel + 1, msb_byte :: rest =>
      decodeChunk msb_byte (rest.take 7) 0 ++ decodeGo fuel (rest.drop 7)

/-- decode_korg_7bit. -/
def decode_korg_7bit (encoded_data : List Nat) : List Nat :=
  decodeGo encoded_data.length encoded_data

/-- MSB-byte accumulation loop of encode_korg_7bit: for each byte with the
high bit set, set bit j (variant v2) or bit 6-j (default v1). -/
def msbLoop (variant : String) : List Nat → Nat → Nat → Nat
  | [], _, acc => acc
  | byte :: rest, j, acc =>
      msbLoop variant rest (j + 1)
        (if byte &&& 0x80 ≠ 0 then
          acc ||| (1 <<< (if variant = "v2" then j else 6 - j))
        else acc)

/-- Loop of encode_korg_7bit: emit one MSB byte followed by the
7-bit-masked chunk, seven data bytes at a time.  Written with the iteration
bound as structural fuel exactly like decodeGo. -/
def encodeGo : Nat → List Nat → String → List Nat
  | _, [], _ => []
  | 0, _ :: _, _ => []
  | fuel + 1, b :: rest, variant =>
      let chunk := (b :: rest).take 7
      (msbLoop variant chunk 0 0) :: (chunk.map (fun x => x &&& 0x7F)) ++
        encodeGo fuel ((b :: rest).drop 7) variant

/-- encode_korg_7bit. -/
def encode_korg_7bit (decoded_data : List Nat) (variant : String := "v1") : List Nat :=
  encodeGo decoded_data.length decoded_data variant

/-! ## FieldCodec helpers -/

/-- _clamp_byte: max(0, min(255, int(value))). -/
def clampByte (value : Int) : Nat := (max 0 (min 255 value)).toNat

/-- _to_offset64: range-checked encode, value+64; raises ValueError when out
of the declared min..max domain. -/
def toOffset64 (value : Int) (min_val : Int := -64) (max_val : Int := 63) :
    Except String Nat :=
  if value < min_val ∨ value > max_val then
    .error s!"Offset-64 value out of range {min_val}~{max_val}: {value}"
  else
    .ok (value + 64).toNat

/-- _from_offset64: total decode, byte - 64. -/
def fromOffset64 (byte_value : Nat) : Int := (byte_value : Int) - 64

/-- _write_masked: buffer[i] = (current AND (NOT mask)) OR (value AND mask).
On byte values the complement-AND equals subtracting the masked part. -/
def writeMasked (data : List Nat) (index : Nat) (value : Nat) (mask : Nat) :
    List Nat :=
  let current := data.getD index 0
  data.set index ((current - (current &&& mask)) ||| (value &&& mask))

/-- Characters stripped by the default Python str.strip family (the ASCII
range of Py_UNICODE_ISSPACE: tab through carriage return, the separator
block 0x1C-0x1F, and the space). -/
def isPySpace (c : Char) : Bool :=
  c.toNat = 9 ∨ c.toNat = 10 ∨ c.toNat = 11 ∨ c.toNat = 12 ∨ c.toNat = 13 ∨
    c.toNat = 28 ∨ c.toNat = 29 ∨ c.toNat = 30 ∨ c.toNat = 31 ∨ c.toNat = 32

/-- Python str.strip() on the character list. -/
def pyStrip (l : List Char) : List Char :=
  ((l.dropWhile isPySpace).reverse.dropWhile isPySpace).reverse

/-- Python str.isdigit for the ASCII strings arising here: nonempty and all
characters are decimal digits. -/
def isDigits (l : List Char) : Bool := !l.isEmpty && l.all Char.isDigit

/-- Value of a decimal-digit character list (used only when isDigits holds). -/
def digitsVal (l : List Char) : Nat :=
  l.foldl (fun acc c => acc * 10 + (c.toNat - 48)) 0

/-- Python stripped[stripped.rfind LPAR + 1 : -1]: the segment strictly
between the last opening parenthesis and the final character. -/
def innerToken (l : List Char) : List Char :=
  ((l.reverse.takeWhile (fun c => c ≠ '(')).reverse).dropLast

/-- _lookup: tolerant enum lookup.  Accepts a numeric string, a negative
numeric string, a bracketed fallback token such as LABEL(7), or an exact
name; anything else resolves to the default.  (The isinstance-int branch of
the source does not arise for the string-typed records modelled here.) -/
def lookup (options : List String) (value : String) (default : Nat := 0) : Int :=
  let stripped := pyStrip value.data
  if stripped.head? = some '-' ∧ isDigits (stripped.drop 1) then
    -(digitsVal (stripped.drop 1) : Int)
  else if isDigits stripped then
    (digitsVal stripped : Int)
  else if stripped.contains '(' ∧ stripped.getLast? = some ')' then
    let inner := innerToken stripped
    if isDigits inner then (digitsVal inner : Int)
    else match options.indexOf? (String.mk stripped) with
      | some i => (i : Int)
      | none => (default : Int)
  else match options.indexOf? (String.mk stripped) with
    | some i => (i : Int)
    | none => (default : Int)

/-- Python str.upper restricted to the ASCII letters (sufficient for the
GATE comparison in the amp block). -/
def pyUpper (s : String) : String :=
  String.mk (s.data.map (fun c =>
    if 97 ≤ c.toNat ∧ c.toNat ≤ 122 then Char.ofNat (c.toNat - 32) else c))

/-- Python x AND mask for Int x and a mask m with m+1 a power of two:
two's-complement AND equals reduction mod (m+1). -/
def imask (x : Int) (msucc : Nat) : Nat := (x % (msucc : Int)).toNat

/-! ## slot_name -/

/-- Two-digit zero-padded decimal (format 02d) for the 1..16 numbers used. -/
def pad2 (n : Nat) : String := if n < 10 then "0" ++ toString n else toString n

/-- slot_name: A01..H16 for a 1-based index, else ValueError. -/
def slot_name (index : Nat) : Except String String :=
  if ¬ (1 ≤ index ∧ index ≤ 128) then
    .error "Slot index must be in range 1..128"
  else
    let zero_based := index - 1
    let bank := Char.ofNat (65 + zero_based / 16)
    let num := zero_based % 16 + 1
    .ok (String.mk [bank] ++ pad2 num)

/-! ## repair_sysex (byte-level part; file I/O and the report dictionary are
modelled as the returned bytes plus the list of change tags) -/

/-- Backward scan of repair_sysex: cut after the last non-zero byte; when
every byte is zero the loop never breaks and the data is left whole. -/
def truncToLastNonzero (data : List Nat) : List Nat :=
  let kept := (data.reverse.dropWhile (fun b => b = 0)).reverse
  if kept = [] then data else kept

/-- repair_sysex on the in-memory bytes: header validation, then terminator
fixup.  Returns the output bytes and the report's changes list. -/
def repair_sysex (data : List Nat) : Except String (List Nat × List String) :=
  if data.length < 6 ∨ data.getD 0 0 ≠ 0xF0 ∨ data.getD 1 0 ≠ 0x42 ∨
      data.getD 3 0 ≠ 0x58 then
    .error "Not a valid MS2000 SysEx file"
  else if data.getLast? ≠ some 0xF7 then
    .ok (truncToLastNonzero data ++ [0xF7], ["appended_f7"])
  else
    .ok (data, [])

/-! ## Enum tables -/

def VOICE_MODES : List String := ["Single", "Split", "Layer", "Vocoder"]

def SCALE_KEYS : List String :=
  ["C", "C#", "D", "D#"] ++ ["E", "F", "F#", "G"] ++ ["G#", "A", "A#", "B"]

def DELAY_TYPES : List String := ["StereoDelay", "CrossDelay", "L/R Delay"]

def MOD_TYPES : List String := ["Cho/Flg", "Ensemble", "Phaser"]

def ARP_TYPES : List String := ["Up", "Down", "Alt1", "Alt2", "Random", "Trigger"]

def OSC1_WAVES : List String :=
  ["Saw", "Pulse", "Triangle", "Sine", "Vox Wave", "DWGS", "Noise", "Audio In"]

def OSC2_WAVES : List String := ["Saw", "Square", "Triangle"]

def MOD_SELECT : List String := ["Off", "Ring", "Sync", "Ring+Sync"]

def FILTER_TYPES : List String := ["24dB LPF", "12dB LPF", "12dB BPF", "12dB HPF"]

def LFO1_WAVES : List String := ["Saw", "Square", "Triangle", "S/H"]

def LFO2_WAVES : List String := ["Saw", "Square+", "Sine", "S/H"]

def PATCH_SOURCE_NAMES : List String :=
  ["EG1", "EG2", "LFO1", "LFO2", "Velocity", "KeyTrack", "MIDI1", "MIDI2"]

def PATCH_DEST_NAMES : List String :=
  ["PITCH", "OSC2PITCH", "OSC1CTRL1", "OSC1CTRL2", "CUTOFF", "RESONANCE",
   "LFO1FREQ", "LFO2FREQ"]

/-! ## Parsing (MS2000Patch._parse, _extract_timbre, extract_full_parameters) -/

/-- Characters stripped by Python str.rstrip() in the ASCII range. -/
def isPySpaceChar (c : Char) : Bool :=
  c.toNat = 9 ∨ c.toNat = 10 ∨ c.toNat = 11 ∨ c.toNat = 12 ∨ c.toNat = 13 ∨
    c.toNat = 28 ∨ c.toNat = 29 ∨ c.toNat = 30 ∨ c.toNat = 31 ∨ c.toNat = 32

/-- bytes.decode("ascii", errors="replace"): bytes below 128 become their
character, others the U+FFFD replacement character. -/
def decodeAsciiReplace (bytes : List Nat) : List Char :=
  bytes.map (fun b => if b < 128 then Char.ofNat b else '�')

/-- Python str.rstrip(). -/
def pyRstrip (s : List Char) : List Char := (s.reverse.dropWhile isPySpaceChar).reverse

/-- Name parse: d[0:12].decode("ascii", errors="replace").rstrip(). -/
def parseName (raw : List Nat) : String :=
  String.mk (pyRstrip (decodeAsciiReplace (raw.take 12)))

/-- _map_choice: a table entry, or a LABEL(index) fallback token. -/
def mapChoice (options : List String) (index : Nat) (label : String) : String :=
  if index < options.length then options.getD index "" else s!"{label}({index})"

/-- Inline fallback used in MS2000Patch._parse: a table entry or str(index). -/
def choiceOrNum (options : List String) (index : Nat) : String :=
  if index < options.length then options.getD index "" else toString index

/-- One modulation-matrix routing as decoded by _extract_timbre. -/
structure PatchRoute where
  source : String
  destination : String
  intensity : Int

/-- The flattened timbre dictionary produced by _extract_timbre (nesting
such as osc1.wave is rendered as field osc1_wave). -/
structure Timbre where
  portamento_time : Int
  osc1_wave : String
  osc1_wave_value : Nat
  osc1_ctrl1 : Int
  osc1_ctrl2 : Int
  osc1_dwgs_wave : Option Nat
  osc2_wave : String
  osc2_wave_value : Nat
  osc2_modulation : String
  osc2_mod_value : Nat
  osc2_semitone : Int
  osc2_tune : Int
  mixer_osc1_level : Int
  mixer_osc2_level : Int
  mixer_noise_level : Int
  filter_type : String
  filter_type_value : Nat
  filter_cutoff : Int
  filter_resonance : Int
  filter_eg1_intensity : Int
  filter_velocity_sense : Int
  filter_kbd_track : Int
  amp_level : Int
  amp_panpot : Int
  amp_switch : String
  amp_distortion : Bool
  amp_kbd_track : Int
  amp_velocity_sense : Int
  eg1_attack : Int
  eg1_decay : Int
  eg1_sustain : Int
  eg1_release : Int
  eg2_attack : Int
  eg2_decay : Int
  eg2_sustain : Int
  eg2_release : Int
  lfo1_wave : String
  lfo1_wave_value : Nat
  lfo1_frequency : Int
  lfo1_tempo_sync : Bool
  lfo1_tempo_value : Option Nat
  lfo2_wave : String
  lfo2_wave_value : Nat
  lfo2_frequency : Int
  lfo2_tempo_sync : Bool
  lfo2_tempo_value : Option Nat
  patch1 : PatchRoute
  patch2 : PatchRoute
  patch3 : PatchRoute
  patch4 : PatchRoute

/-- One matrix slot (i = 0..3), from the dictionary comprehension in
_extract_timbre. -/
def extractRoute (raw : List Nat) (offset : Nat) (i : Nat) : PatchRoute :=
  let d := fun k => raw.getD k 0
  { source := mapChoice PATCH_SOURCE_NAMES (d (offset + 44 + i * 2) &&& 0x0F) "SRC"
    destination :=
      mapChoice PATCH_DEST_NAMES ((d (offset + 44 + i * 2) >>> 4) &&& 0x0F) "DEST"
    intensity := fromOffset64 (d (offset + 45 + i * 2) &&& 0x7F) }

/-- _extract_timbre. -/
def extractTimbre (raw : List Nat) (offset : Nat) : Timbre :=
  let d := fun k => raw.getD k 0
  let osc1_wave_val := d (offset + 7) &&& 0x07
  let osc2_byte := d (offset + 12)
  let osc2_wave_val := osc2_byte &&& 0x03
  let osc2_mod_val := (osc2_byte >>> 4) &&& 0x03
  let filt_type_val := d (offset + 19) &&& 0x03
  let lfo1_wave_val := d (offset + 38) &&& 0x03
  let lfo2_wave_val := d (offset + 41) &&& 0x03
  { portamento_time := d (offset + 5)
    osc1_wave := mapChoice OSC1_WAVES osc1_wave_val "OSC1"
    osc1_wave_value := osc1_wave_val
    osc1_ctrl1 := d (offset + 8)
    osc1_ctrl2 := d (offset + 9)
    osc1_dwgs_wave := some (d (offset + 10) + 1)
    osc2_wave := mapChoice OSC2_WAVES osc2_wave_val "OSC2"
    osc2_wave_value := osc2_wave_val
    osc2_modulation := mapChoice MOD_SELECT osc2_mod_val "MOD"
    osc2_mod_value := osc2_mod_val
    osc2_semitone := fromOffset64 (d (offset + 13) &&& 0x7F)
    osc2_tune := fromOffset64 (d (offset + 14) &&& 0x7F)
    mixer_osc1_level := d (offset + 16)
    mixer_osc2_level := d (offset + 17)
    mixer_noise_level := d (offset + 18)
    filter_type := mapChoice FILTER_TYPES filt_type_val "FILTER"
    filter_type_value := filt_type_val
    filter_cutoff := d (offset + 20)
    filter_resonance := d (offset + 21)
    filter_eg1_intensity := fromOffset64 (d (offset + 22) &&& 0x7F)
    filter_velocity_sense := fromOffset64 (d (offset + 23) &&& 0x7F)
    filter_kbd_track := fromOffset64 (d (offset + 24) &&& 0x7F)
    amp_level := d (offset + 25)
    amp_panpot := fromOffset64 (d (offset + 26) &&& 0x7F)
    amp_switch := if d (offset + 27) &&& 0x01 ≠ 0 then "GATE" else "EG2"
    amp_distortion := d (offset + 27) &&& 0x01 ≠ 0
    amp_kbd_track := fromOffset64 (d (offset + 29) &&& 0x7F)
    amp_velocity_sense := fromOffset64 (d (offset + 28) &&& 0x7F)
    eg1_attack := d (offset + 30)
    eg1_decay := d (offset + 31)
    eg1_sustain := d (offset + 32)
    eg1_release := d (offset + 33)
    eg2_attack := d (offset + 34)
    eg2_decay := d (offset + 35)
    eg2_sustain := d (offset + 36)
    eg2_release := d (offset + 37)
    lfo1_wave := mapChoice LFO1_WAVES lfo1_wave_val "LFO1"
    lfo1_wave_value := lfo1_wave_val
    lfo1_frequency := d (offset + 39)
    lfo1_tempo_sync := d (offset + 40) &&& 0x01 ≠ 0
    lfo1_tempo_value := some (d (offset + 40))
    lfo2_wave := mapChoice LFO2_WAVES lfo2_wave_val "LFO2"
    lfo2_wave_value := lfo2_wave_val
    lfo2_frequency := d (offset + 42)
    lfo2_tempo_sync := d (offset + 43) &&& 0x01 ≠ 0
    lfo2_tempo_value := some (d (offset + 43))
    patch1 := extractRoute raw offset 0
    patch2 := extractRoute raw offset 1
    patch3 := extractRoute raw offset 2
    patch4 := extractRoute raw offset 3 }

/-- The fields MS2000Patch._parse computes from the 254 raw bytes. -/
structure MS2000Patch where
  raw_data : List Nat
  name : String
  timbre_voice : Nat
  voice_mode : String
  scale_key : String
  scale_type : Nat
  split_point : Int
  delay_sync : Bool
  delay_timebase : Nat
  delay_time : Int
  delay_depth : Int
  delay_type : String
  mod_speed : Int
  mod_depth : Int
  mod_type : String
  eq_hi_freq : Int
  eq_hi_gain : Int
  eq_low_freq : Int
  eq_low_gain : Int
  arp_tempo : Nat
  arp_on : Bool
  arp_latch : Bool
  arp_target : Nat
  arp_keysync : Bool
  arp_type : String
  arp_range : Nat

/-- MS2000Patch._parse on the (already truncated) raw bytes. -/
def parsePatch (raw : List Nat) : MS2000Patch :=
  let d := fun k => raw.getD k 0
  { raw_data := raw
    name := parseName raw
    timbre_voice := (d 16 >>> 6) &&& 0x03
    voice_mode := VOICE_MODES.getD ((d 16 >>> 4) &&& 0x03) ""
    scale_key :=
      let scale_key_idx := (d 17 >>> 4) &&& 0x0F
      if scale_key_idx < 12 then SCALE_KEYS.getD scale_key_idx ""
      else toString scale_key_idx
    scale_type := d 17 &&& 0x0F
    split_point := d 18
    delay_sync := (d 19 >>> 7) &&& 0x01 ≠ 0
    delay_timebase := d 19 &&& 0x0F
    delay_time := d 20
    delay_depth := d 21
    delay_type := choiceOrNum DELAY_TYPES (d 22)
    mod_speed := d 23
    mod_depth := d 24
    mod_type := choiceOrNum MOD_TYPES (d 25)
    eq_hi_freq := d 26
    eq_hi_gain := d 27
    eq_low_freq := d 28
    eq_low_gain := d 29
    arp_tempo := (d 30 <<< 8) ||| d 31
    arp_on := (d 32 >>> 7) &&& 0x01 ≠ 0
    arp_latch := (d 32 >>> 6) &&& 0x01 ≠ 0
    arp_target := (d 32 >>> 4) &&& 0x03
    arp_keysync := d 32 &&& 0x01 ≠ 0
    arp_type := choiceOrNum ARP_TYPES (d 33 &&& 0x0F)
    arp_range := ((d 33 >>> 4) &&& 0x0F) + 1 }

/-- MS2000Patch.__init__: reject short input, truncate to PATCH_SIZE, parse. -/
def mkPatch (data : List Nat) : Except String MS2000Patch :=
  if data.length < PATCH_SIZE then
    .error s!"Patch data must be {PATCH_SIZE} bytes, got {data.length}"
  else
    .ok (parsePatch (data.take PATCH_SIZE))

/-- The record dictionary produced by extract_full_parameters, flattened the
same way as Timbre. -/
structure PatchRecord where
  name : String
  voice_mode : String
  timbre_voice : Nat
  scale_key : String
  scale_type : Nat
  split_point : Int
  delay_type : String
  delay_sync : Bool
  delay_time : Int
  delay_depth : Int
  delay_timebase : Nat
  mod_type : String
  mod_speed : Int
  mod_depth : Int
  eq_hi_freq : Int
  eq_hi_gain : Int
  eq_low_freq : Int
  eq_low_gain : Int
  arp_on : Bool
  arp_tempo : Nat
  arp_latch : Bool
  arp_target : Nat
  arp_keysync : Bool
  arp_type : String
  arp_range : Nat
  timbre1 : Option Timbre
  timbre2 : Option Timbre
  system_base_patch : List Nat

/-- extract_full_parameters: record the patch fields, timbre1, timbre2 only
for Split and Layer voice modes, and the raw bytes as system.base_patch. -/
def extract_full_parameters (patch : MS2000Patch) : PatchRecord :=
  { name := patch.name
    voice_mode := patch.voice_mode
    timbre_voice := patch.timbre_voice
    scale_key := patch.scale_key
    scale_type := patch.scale_type
    split_point := patch.split_point
    delay_type := patch.delay_type
    delay_sync := patch.delay_sync
    delay_time := patch.delay_time
    delay_depth := patch.delay_depth
    delay_timebase := patch.delay_timebase
    mod_type := patch.mod_type
    mod_speed := patch.mod_speed
    mod_depth := patch.mod_depth
    eq_hi_freq := patch.eq_hi_freq
    eq_hi_gain := patch.eq_hi_gain
    eq_low_freq := patch.eq_low_freq
    eq_low_gain := patch.eq_low_gain
    arp_on := patch.arp_on
    arp_tempo := patch.arp_tempo
    arp_latch := patch.arp_latch
    arp_target := patch.arp_target
    arp_keysync := patch.arp_keysync
    arp_type := patch.arp_type
    arp_range := patch.arp_range
    timbre1 := some (extractTimbre patch.raw_data 38)
    timbre2 :=
      if patch.voice_mode = "Split" ∨ patch.voice_mode = "Layer" then
        some (extractTimbre patch.raw_data 134)
      else none
    system_base_patch := patch.raw_data.take PATCH_SIZE }

/-! ## Building (build_patch_bytes) -/

/-- bytearray item assignment data[i] = v: Python raises ValueError unless
0 <= v < 256.  Used for the two assignments whose right-hand side is an
unbounded lookup result; every other assignment is masked or clamped. -/
def setByteChecked (data : List Nat) (index : Nat) (value : Int) :
    Except String (List Nat) :=
  if 0 ≤ value ∧ value < 256 then .ok (data.set index value.toNat)
  else .error "byte must be in range(0, 256)"

/-- encode_timbre: portamento byte. -/
def encTimVoice (t : Timbre) (offset : Nat) (data : List Nat) : List Nat :=
  data.set (offset + 5) (clampByte t.portamento_time)

/-- encode_timbre: oscillator 1 (wave bits 0-2, ctrl1, ctrl2, DWGS wave). -/
def encTimOsc1 (t : Timbre) (offset : Nat) (data : List Nat) : List Nat :=
  let wave1_idx := lookup OSC1_WAVES t.osc1_wave t.osc1_wave_value
  let data := writeMasked data (offset + 7) (imask wave1_idx 8) 0x07
  let data := data.set (offset + 8) (clampByte t.osc1_ctrl1)
  let data := data.set (offset + 9) (clampByte t.osc1_ctrl2)
  match t.osc1_dwgs_wave with
  | none => data
  | some dwgs_raw =>
      let dwgs : Int := (dwgs_raw : Int) - 1
      if 0 ≤ dwgs ∧ dwgs ≤ 63 then writeMasked data (offset + 10) dwgs.toNat 0x3F
      else data

/-- encode_timbre: oscillator 2 (wave bits 0-1, modulation bits 4-5,
semitone with the narrow -24..24 domain, tune). -/
def encTimOsc2 (t : Timbre) (offset : Nat) (data : List Nat) :
    Except String (List Nat) := do
  let wave2_idx := lookup OSC2_WAVES t.osc2_wave t.osc2_wave_value
  let mod_idx := lookup MOD_SELECT t.osc2_modulation t.osc2_mod_value
  let data := writeMasked data (offset + 12) (imask wave2_idx 4) 0x03
  let data := writeMasked data (offset + 12) ((imask mod_idx 4) <<< 4) 0x30
  let semitone ← toOffset64 t.osc2_semitone (-24) 24
  let data := writeMasked data (offset + 13) semitone 0x7F
  let tune ← toOffset64 t.osc2_tune
  return writeMasked data (offset + 14) tune 0x7F

/-- encode_timbre: mixer levels. -/
def encTimMixer (t : Timbre) (offset : Nat) (data : List Nat) : List Nat :=
  ((data.set (offset + 16) (clampByte t.mixer_osc1_level)).set (offset + 17)
    (clampByte t.mixer_osc2_level)).set (offset + 18) (clampByte t.mixer_noise_level)

/-- encode_timbre: filter block. -/
def encTimFilter (t : Timbre) (offset : Nat) (data : List Nat) :
    Except String (List Nat) := do
  let filter_idx := lookup FILTER_TYPES t.filter_type t.filter_type_value
  let data := writeMasked data (offset + 19) (imask filter_idx 4) 0x03
  let data := data.set (offset + 20) (clampByte t.filter_cutoff)
  let data := data.set (offset + 21) (clampByte t.filter_resonance)
  let eg1_int ← toOffset64 t.filter_eg1_intensity
  let data := writeMasked data (offset + 22) eg1_int 0x7F
  let vel_sense ← toOffset64 t.filter_velocity_sense
  let data := writeMasked data (offset + 23) vel_sense 0x7F
  let kbd_track ← toOffset64 t.filter_kbd_track
  return writeMasked data (offset + 24) kbd_track 0x7F

/-- encode_timbre: amp block.  Byte offset+27 carries the switch bit 6 and
distortion bit 0; bit 6 is forced on in Single and Split voice modes and
preserved by masked merge otherwise. -/
def encTimAmp (voice_mode : String) (t : Timbre) (offset : Nat) (data : List Nat) :
    Except String (List Nat) := do
  let data := data.set (offset + 25) (clampByte t.amp_level)
  let panpot ← toOffset64 t.amp_panpot
  let data := writeMasked data (offset + 26) panpot 0x7F
  let gate_flag : Nat := if pyUpper t.amp_switch = "GATE" then 0x40 else 0x00
  let distortion_flag : Nat := if t.amp_distortion then 0x01 else 0x00
  let data :=
    if voice_mode = "Single" ∨ voice_mode = "Split" then
      data.set (offset + 27) (0x40 ||| gate_flag ||| distortion_flag)
    else
      let current := data.getD (offset + 27) 0
      data.set (offset + 27)
        ((current - (current &&& 0x41)) ||| gate_flag ||| distortion_flag)
  let amp_vel ← toOffset64 t.amp_velocity_sense
  let data := writeMasked data (offset + 28) amp_vel 0x7F
  let amp_kbd ← toOffset64 t.amp_kbd_track
  return writeMasked data (offset + 29) amp_kbd 0x7F

/-- encode_timbre: the two envelopes. -/
def encTimEnvelopes (t : Timbre) (offset : Nat) (data : List Nat) : List Nat :=
  let data := data.set (offset + 30) (clampByte t.eg1_attack)
  let data := data.set (offset + 31) (clampByte t.eg1_decay)
  let data := data.set (offset + 32) (clampByte t.eg1_sustain)
  let data := data.set (offset + 33) (clampByte t.eg1_release)
  let data := data.set (offset + 34) (clampByte t.eg2_attack)
  let data := data.set (offset + 35) (clampByte t.eg2_decay)
  let data := data.set (offset + 36) (clampByte t.eg2_sustain)
  data.set (offset + 37) (clampByte t.eg2_release)

/-- encode_timbre: the two LFOs (wave bits 0-1, frequency, tempo byte whose
bit 0 mirrors tempo_sync). -/
def encTimLFOs (t : Timbre) (offset : Nat) (data : List Nat) : List Nat :=
  let lfo1_idx := lookup LFO1_WAVES t.lfo1_wave t.lfo1_wave_value
  let data := writeMasked data (offset + 38) (imask lfo1_idx 4) 0x03
  let data := data.set (offset + 39) (clampByte t.lfo1_frequency)
  let tempo_byte1 : Nat :=
    match t.lfo1_tempo_value with
    | none => if t.lfo1_tempo_sync then 1 else 0
    | some tempo1_raw => tempo1_raw &&& 0xFF
  let tempo_byte1 :=
    if t.lfo1_tempo_sync then tempo_byte1 ||| 0x01 else tempo_byte1 &&& 0xFE
  let data := data.set (offset + 40) (tempo_byte1 &&& 0xFF)
  let lfo2_idx := lookup LFO2_WAVES t.lfo2_wave t.lfo2_wave_value
  let data := writeMasked data (offset + 41) (imask lfo2_idx 4) 0x03
  let data := data.set (offset + 42) (clampByte t.lfo2_frequency)
  let tempo_byte2 : Nat :=
    match t.lfo2_tempo_value with
    | none => if t.lfo2_tempo_sync then 1 else 0
    | some tempo2_raw => tempo2_raw &&& 0xFF
  let tempo_byte2 :=
    if t.lfo2_tempo_sync then tempo_byte2 ||| 0x01 else tempo_byte2 &&& 0xFE
  data.set (offset + 43) (tempo_byte2 &&& 0xFF)

/-- encode_timbre: one modulation-matrix slot (source low nibble,
destination high nibble, then the offset-64 intensity byte). -/
def encTimRoute (route : PatchRoute) (base_pos : Nat) (data : List Nat) :
    Except String (List Nat) := do
  let src_idx := lookup PATCH_SOURCE_NAMES route.source
  let dst_idx := lookup PATCH_DEST_NAMES route.destination
  let data := data.set base_pos (((imask dst_idx 16) <<< 4) ||| (imask src_idx 16))
  let intensity ← toOffset64 route.intensity
  return data.set (base_pos + 1) (intensity &&& 0x7F)

/-- encode_timbre: the four-slot modulation matrix loop. -/
def encTimMatrix (t : Timbre) (offset : Nat) (data : List Nat) :
    Except String (List Nat) := do
  let data ← encTimRoute t.patch1 (offset + 44 + 0 * 2) data
  let data ← encTimRoute t.patch2 (offset + 44 + 1 * 2) data
  let data ← encTimRoute t.patch3 (offset + 44 + 2 * 2) data
  encTimRoute t.patch4 (offset + 44 + 3 * 2) data

/-- encode_timbre, the inner function of build_patch_bytes, as the sequence
of its paragraphs.  A missing (falsy) timbre dictionary leaves the buffer
untouched. -/
def encodeTimbre (voice_mode : String) (timbre : Option Timbre) (offset : Nat)
    (data0 : List Nat) : Except String (List Nat) := do
  match timbre with
  | none => return data0
  | some t =>
    let data := encTimVoice t offset data0
    let data := encTimOsc1 t offset data
    let data ← encTimOsc2 t offset data
    let data := encTimMixer t offset data
    let data ← encTimFilter t offset data
    let data ← encTimAmp voice_mode t offset data
    let data := encTimEnvelopes t offset data
    let data := encTimLFOs t offset data
    encTimMatrix t offset data

/-- build_patch_bytes: voice-mode byte (timbre enable bits 6-7, voice mode
bits 4-5, low nibble preserved). -/
def bfVoice (record : PatchRecord) (data : List Nat) : List Nat :=
  let voice_idx := lookup VOICE_MODES record.voice_mode
  let timbre_voice := record.timbre_voice &&& 0x03
  let combined_voice :=
    ((timbre_voice &&& 0x03) <<< 6) ||| ((imask voice_idx 4) <<< 4)
  writeMasked data 16 combined_voice 0xF0

/-- build_patch_bytes: scale byte and split point. -/
def bfScale (record : PatchRecord) (data : List Nat) : List Nat :=
  let key_idx := lookup SCALE_KEYS record.scale_key
  let scale_type := record.scale_type &&& 0x0F
  let data := data.set 17 (((imask key_idx 16) <<< 4) ||| scale_type)
  data.set 18 (clampByte record.split_point)

/-- build_patch_bytes: delay block (sync bit 7 plus timebase nibble, time,
depth, type). -/
def bfDelay (record : PatchRecord) (data : List Nat) : Except String (List Nat) := do
  let delay_timebase := record.delay_timebase &&& 0x0F
  let data := data.set 19
    ((if record.delay_sync then 0x80 else 0x00) ||| delay_timebase)
  let data := data.set 20 (clampByte record.delay_time)
  let data := data.set 21 (clampByte record.delay_depth)
  setByteChecked data 22 (lookup DELAY_TYPES record.delay_type)

/-- build_patch_bytes: mod-fx block. -/
def bfModFx (record : PatchRecord) (data : List Nat) : Except String (List Nat) := do
  let data := data.set 23 (clampByte record.mod_speed)
  let data := data.set 24 (clampByte record.mod_depth)
  setByteChecked data 25 (lookup MOD_TYPES record.mod_type)

/-- build_patch_bytes: EQ block. -/
def bfEq (record : PatchRecord) (data : List Nat) : List Nat :=
  let data := data.set 26 (clampByte record.eq_hi_freq)
  let data := data.set 27 (clampByte record.eq_hi_gain)
  let data := data.set 28 (clampByte record.eq_low_freq)
  data.set 29 (clampByte record.eq_low_gain)

/-- build_patch_bytes: arpeggiator block (14-bit tempo over two bytes, the
flag byte 32, type and range in byte 33). -/
def bfArp (record : PatchRecord) (data : List Nat) : List Nat :=
  let tempo := record.arp_tempo
  let data := data.set 30 ((tempo >>> 8) &&& 0xFF)
  let data := data.set 31 (tempo &&& 0xFF)
  let byte32 : Nat :=
    (if record.arp_on then 0x80 else 0) ||| (if record.arp_latch then 0x40 else 0) |||
      ((record.arp_target &&& 0x03) <<< 4) |||
      (if record.arp_keysync then 0x01 else 0)
  let data := data.set 32 byte32
  let arp_type_idx := lookup ARP_TYPES record.arp_type
  let arp_range := max 1 (min 16 record.arp_range)
  data.set 33 (((arp_range - 1) <<< 4) ||| (imask arp_type_idx 16))

/-- First step of build_patch_bytes: seed the buffer from system.base_patch
when present (truncated to 254 bytes, byte-masked, zero-extended), else use
a zeroed buffer. -/
def seedData (record : PatchRecord) : List Nat :=
  let base_patch := record.system_base_patch
  if base_patch ≠ [] then
    let base_bytes := (base_patch.take PATCH_SIZE).map (fun b => b &&& 0xFF)
    base_bytes ++ List.replicate (PATCH_SIZE - base_bytes.length) 0
  else
    List.replicate PATCH_SIZE 0

/-- Name step of build_patch_bytes: write the truncated, space-padded name
to bytes 0..11 only when its first 12 characters are all ASCII. -/
def applyName (record : PatchRecord) (data : List Nat) : List Nat :=
  let name := record.name.data.take 12
  if name.all (fun ch => ch.toNat < 128) then
    let encoded_name := (name.map Char.toNat) ++ List.replicate (12 - name.length) 0x20
    encoded_name ++ data.drop 12
  else data

/-- Remainder of build_patch_bytes after the name step. -/
def buildFields (record : PatchRecord) (data : List Nat) : Except String (List Nat) := do
  let voice_mode := record.voice_mode
  let data := bfVoice record data
  let data := bfScale record data
  let data ← bfDelay record data
  let data ← bfModFx record data
  let data := bfEq record data
  let data := bfArp record data
  let data ← encodeTimbre voice_mode record.timbre1 38 data
  if voice_mode = "Split" ∨ voice_mode = "Layer" then
    encodeTimbre voice_mode record.timbre2 134 data
  else pure data

/-- build_patch_bytes: seed from the base bytes, write the name, then every
modelled field. -/
def buildPatchBytes (record : PatchRecord) : Except String (List Nat) :=
  buildFields record (applyName record (seedData record))

/-! ## Concrete records used by the claim witnesses -/

/-- A record with every field at a neutral value, used as the base for the
concrete records below. -/
def plainRec : PatchRecord :=
  { name := "Init", voice_mode := "Single", timbre_voice := 1, scale_key := "C",
    scale_type := 0, split_point := 0, delay_type := "StereoDelay",
    delay_sync := false, delay_time := 0, delay_depth := 0, delay_timebase := 0,
    mod_type := "Cho/Flg", mod_speed := 0, mod_depth := 0, eq_hi_freq := 0,
    eq_hi_gain := 0, eq_low_freq := 0, eq_low_gain := 0, arp_on := false,
    arp_tempo := 120, arp_latch := false, arp_target := 0, arp_keysync := false,
    arp_type := "Up", arp_range := 1, timbre1 := none, timbre2 := none,
    system_base_patch := [] }

/-- The ok-payload of a successful build (empty list on failure); used to
name build outputs in closed statements. -/
def buildOk (record : PatchRecord) : List Nat :=
  match buildPatchBytes record with
  | .ok data => data
  | .error _ => []

/-- plainRec with a name containing a non-ASCII character. -/
def nonAsciiRec : PatchRecord := { plainRec with name := "Fü" }

/-- plainRec with split_point outside the byte domain. -/
def clampRec : PatchRecord := { plainRec with split_point := 300 }

/-- A timbre with every field at a neutral value except the out-of-domain
osc2 semitone 99. -/
def semDemoTimbre : Timbre :=
  { portamento_time := 0, osc1_wave := "Saw", osc1_wave_value := 0,
    osc1_ctrl1 := 0, osc1_ctrl2 := 0, osc1_dwgs_wave := some 1,
    osc2_wave := "Saw", osc2_wave_value := 0, osc2_modulation := "Off",
    osc2_mod_value := 0, osc2_semitone := 99, osc2_tune := 0,
    mixer_osc1_level := 0, mixer_osc2_level := 0, mixer_noise_level := 0,
    filter_type := "24dB LPF", filter_type_value := 0, filter_cutoff := 0,
    filter_resonance := 0, filter_eg1_intensity := 0, filter_velocity_sense := 0,
    filter_kbd_track := 0, amp_level := 0, amp_panpot := 0, amp_switch := "EG2",
    amp_distortion := false, amp_kbd_track := 0, amp_velocity_sense := 0,
    eg1_attack := 0, eg1_decay := 0, eg1_sustain := 0, eg1_release := 0,
    eg2_attack := 0, eg2_decay := 0, eg2_sustain := 0, eg2_release := 0,
    lfo1_wave := "Saw", lfo1_wave_value := 0, lfo1_frequency := 0,
    lfo1_tempo_sync := false, lfo1_tempo_value := some 0, lfo2_wave := "Saw",
    lfo2_wave_value := 0, lfo2_frequency := 0, lfo2_tempo_sync := false,
    lfo2_tempo_value := some 0,
    patch1 := { source := "EG1", destination := "PITCH", intensity := 0 },
    patch2 := { source := "EG1", destination := "PITCH", intensity := 0 },
    patch3 := { source := "EG1", destination := "PITCH", intensity := 0 },
    patch4 := { source := "EG1", destination := "PITCH", intensity := 0 } }

/-- A Vocoder-mode record seeded from a non-trivial base buffer. -/
def frameRec : PatchRecord :=
  { plainRec with voice_mode := "Vocoder", system_base_patch := List.range 254 }

/-! ## C1: byte-exact round trip -/

/-- Python str.rstrip on raw name bytes (used to state name safety). -/
def isPySpaceByte (b : Nat) : Bool :=
  b = 9 ∨ b = 10 ∨ b = 11 ∨ b = 12 ∨ b = 13 ∨
    b = 28 ∨ b = 29 ∨ b = 30 ∨ b = 31 ∨ b = 32

/-- The name field round-trips precisely when, in the all-ASCII case, the
trailing whitespace run consists of plain spaces (rstrip deletes it and the
re-encode pads with spaces). -/
def nameSafe (r : List Nat) : Prop :=
  (∀ b ∈ r.take 12, b < 128) →
    ∀ b ∈ (r.take 12).reverse.takeWhile isPySpaceByte, b = 0x20

/-- Conditions under which one timbre block rebuilds byte-exactly: the osc2
semitone byte must decode into the narrow -24..24 encode domain, the amp
byte must agree with what the builder writes for the given voice mode, and
the four modulation intensity bytes must have bit 7 clear (the builder
rewrites them as full bytes masked to 7 bits). -/
def timbreSafe (r : List Nat) (voice_mode : String) (offset : Nat) : Prop :=
  (40 ≤ r.getD (offset + 13) 0 &&& 0x7F ∧ r.getD (offset + 13) 0 &&& 0x7F ≤ 88) ∧
  (if voice_mode = "Single" ∨ voice_mode = "Split" then
    r.getD (offset + 27) 0 = 0x40 ||| (r.getD (offset + 27) 0 &&& 0x01)
  else
    (r.getD (offset + 27) 0 >>> 6) &&& 0x01 = r.getD (offset + 27) 0 &&& 0x01) ∧
  r.getD (offset + 45) 0 < 128 ∧ r.getD (offset + 47) 0 < 128 ∧
  r.getD (offset + 49) 0 < 128 ∧ r.getD (offset + 51) 0 < 128

/-- Safety predicate for the byte-exact round trip: the name field
round-trips, the bits the parser drops (bits 4-6 of byte 19, bits 1-3 of
byte 32) are clear, and each timbre block the builder rewrites satisfies
timbreSafe. -/
def roundTripSafe (r : List Nat) : Prop :=
  nameSafe r ∧
  r.getD 19 0 &&& 0x70 = 0 ∧
  r.getD 32 0 &&& 0x0E = 0 ∧
  timbreSafe r (parsePatch r).voice_mode 38 ∧
  ((parsePatch r).voice_mode = "Split" ∨ (parsePatch r).voice_mode = "Layer" →
    timbreSafe r (parsePatch r).voice_mode 134)

/-! ## Helper lemmas -/

theorem shiftRight_and_one (m s : Nat) :
    (m >>> s) &&& 1 = if m.testBit s then 1 else 0 := by
  have h2 : m / 2 ^ s % 2 = (m.testBit s).toNat := (Nat.toNat_testBit m s).symm
  rw [Nat.and_one_is_mod, Nat.shiftRight_eq_div_pow, h2]
  cases m.testBit s <;> rfl

set_option maxRecDepth 4096 in
theorem byte_recompose : ∀ b < 256,
    ((if decide (b &&& 0x80 ≠ 0) = true then (1 : Nat) else 0) <<< 7) |||
      ((b &&& 0x7F) &&& 0x7F) = b := by
  decide

/-- Any sufficient fuel gives the same decodeGo result. -/
theorem decodeGo_fuel_eq : ∀ (n : Nat) (l : List Nat) (fuel1 fuel2 : Nat),
    l.length ≤ n → l.length ≤ fuel1 → l.length ≤ fuel2 →
    decodeGo fuel1 l = decodeGo fuel2 l := by
  intro n
  induction n with
  | zero =>
    intro l f1 f2 hn _ _
    have : l = [] := List.eq_nil_of_length_eq_zero (Nat.le_zero.mp hn)
    subst this
    cases f1 <;> cases f2 <;> rfl
  | succ n ih =>
    intro l f1 f2 hn h1 h2
    match l with
    | [] => cases f1 <;> cases f2 <;> rfl
    | msb_byte :: rest =>
      match f1, f2 with
      | f1 + 1, f2 + 1 =>
        show decodeChunk msb_byte (rest.take 7) 0 ++ decodeGo f1 (rest.drop 7) =
          decodeChunk msb_byte (rest.take 7) 0 ++ decodeGo f2 (rest.drop 7)
        rw [ih (rest.drop 7) f1 f2
          (by simp only [List.length_drop]; simp only [List.length_cons] at hn; omega)
          (by simp only [List.length_drop]; simp only [List.length_cons] at h1; omega)
          (by simp only [List.length_drop]; simp only [List.length_cons] at h2; omega)]
      | 0, _ => exact absurd h1 (by simp)
      | _ + 1, 0 => exact absurd h2 (by simp)

/-- Unfolding equation of decode_korg_7bit on a nonempty list. -/
theorem decode_cons (msb_byte : Nat) (rest : List Nat) :
    decode_korg_7bit (msb_byte :: rest) =
      decodeChunk msb_byte (rest.take 7) 0 ++ decode_korg_7bit (rest.drop 7) := by
  show decodeGo (msb_byte :: rest).length (msb_byte :: rest) = _
  rw [List.length_cons]
  show decodeChunk msb_byte (rest.take 7) 0 ++ decodeGo rest.length (rest.drop 7) = _
  rw [decodeGo_fuel_eq rest.length (rest.drop 7) rest.length (rest.drop 7).length
    (by simp only [List.length_drop]; omega)
    (by simp only [List.length_drop]; omega) le_rfl]
  rfl

/-- Any sufficient fuel gives the same encodeGo result. -/
theorem encodeGo_fuel_eq : ∀ (n : Nat) (l : List Nat) (variant : String) (fuel1 fuel2 : Nat),
    l.length ≤ n → l.length ≤ fuel1 → l.length ≤ fuel2 →
    encodeGo fuel1 l variant = encodeGo fuel2 l variant := by
  intro n
  induction n with
  | zero =>
    intro l variant f1 f2 hn _ _
    have : l = [] := List.eq_nil_of_length_eq_zero (Nat.le_zero.mp hn)
    subst this
    cases f1 <;> cases f2 <;> rfl
  | succ n ih =>
    intro l variant f1 f2 hn h1 h2
    match l with
    | [] => cases f1 <;> cases f2 <;> rfl
    | b :: rest =>
      match f1, f2 with
      | f1 + 1, f2 + 1 =>
        show _ :: _ ++ encodeGo f1 ((b :: rest).drop 7) variant =
          _ :: _ ++ encodeGo f2 ((b :: rest).drop 7) variant
        rw [ih ((b :: rest).drop 7) variant f1 f2
          (by simp only [List.length_drop, List.length_cons]; simp only [List.length_cons] at hn; omega)
          (by simp only [List.length_drop, List.length_cons]; simp only [List.length_cons] at h1; omega)
          (by simp only [List.length_drop, List.length_cons]; simp only [List.length_cons] at h2; omega)]
      | 0, _ => exact absurd h1 (by simp)
      | _ + 1, 0 => exact absurd h2 (by simp)

/-- Unfolding equation of encode_korg_7bit on a nonempty list. -/
theorem encode_cons (b : Nat) (rest : List Nat) (variant : String) :
    encode_korg_7bit (b :: rest) variant =
      (msbLoop variant ((b :: rest).take 7) 0 0) ::
        (((b :: rest).take 7).map (fun x => x &&& 0x7F)) ++
          encode_korg_7bit ((b :: rest).drop 7) variant := by
  show encodeGo (b :: rest).length (b :: rest) variant = _
  rw [List.length_cons]
  show _ :: _ ++ encodeGo rest.length ((b :: rest).drop 7) variant = _
  rw [encodeGo_fuel_eq rest.length ((b :: rest).drop 7) variant rest.length
    ((b :: rest).drop 7).length
    (by simp only [List.length_drop, List.length_cons]; omega)
    (by simp only [List.length_drop, List.length_cons]; omega) le_rfl]
  rfl

/-- Bits at or above position 7-j are never touched by the v1 MSB loop. -/
theorem msbLoop_testBit_above (chunk : List Nat) :
    ∀ (j acc k : Nat), j + chunk.length ≤ 7 → 7 - j ≤ k →
      (msbLoop "v1" chunk j acc).testBit k = acc.testBit k := by
  induction chunk with
  | nil => intro j acc k _ _; rfl
  | cons b rest ih =>
    intro j acc k hj hk
    have hj6 : j ≤ 6 := by simp only [List.length_cons] at hj; omega
    simp only [msbLoop, if_neg (by decide : ¬ ("v1" : String) = "v2")]
    rw [ih (j + 1) _ k (by simp only [List.length_cons] at hj ⊢; omega) (by omega)]
    by_cases hb : b &&& 0x80 ≠ 0
    · rw [if_pos hb, Nat.testBit_or, Nat.one_shiftLeft,
        Nat.testBit_two_pow_of_ne (by omega), Bool.or_false]
    · rw [if_neg hb]

/-- Bit 6-(j+t) of the v1 MSB loop records whether data byte t has its high
bit set, provided the accumulator has its low bits clear. -/
theorem msbLoop_testBit_get (chunk : List Nat) :
    ∀ (j acc t : Nat), j + chunk.length ≤ 7 → t < chunk.length →
      (∀ k, k ≤ 6 - j → acc.testBit k = false) →
      (msbLoop "v1" chunk j acc).testBit (6 - (j + t)) =
        decide (chunk.getD t 0 &&& 0x80 ≠ 0) := by
  induction chunk with
  | nil => intro j acc t _ ht _; simp at ht
  | cons b rest ih =>
    intro j acc t hj ht hacc
    have hj6 : j ≤ 6 := by simp only [List.length_cons] at hj; omega
    match t with
    | 0 =>
      simp only [msbLoop, if_neg (by decide : ¬ ("v1" : String) = "v2")]
      have hpos0 : 6 - (j + 0) = 6 - j := by omega
      rw [hpos0]
      rw [msbLoop_testBit_above rest (j + 1) _ (6 - j)
        (by simp only [List.length_cons] at hj; omega) (by omega)]
      by_cases hb : b &&& 0x80 ≠ 0
      · rw [if_pos hb, Nat.testBit_or, Nat.one_shiftLeft, Nat.testBit_two_pow_self,
          hacc (6 - j) le_rfl]
        simp [hb]
      · rw [if_neg hb, hacc (6 - j) le_rfl]
        simp [hb]
    | t + 1 =>
      have hrest : t < rest.length := by
        simp only [List.length_cons] at ht; omega
      have hj5 : j ≤ 5 := by
        simp only [List.length_cons] at hj; omega
      simp only [msbLoop, if_neg (by decide : ¬ ("v1" : String) = "v2")]
      have hpos : 6 - (j + (t + 1)) = 6 - ((j + 1) + t) := by omega
      rw [hpos, ih (j + 1) _ t (by simp only [List.length_cons] at hj; omega) hrest ?hlow]
      · rfl
      case hlow =>
        intro k hk
        by_cases hb : b &&& 0x80 ≠ 0
        · rw [if_pos hb, Nat.testBit_or, Nat.one_shiftLeft,
            Nat.testBit_two_pow_of_ne (by omega), hacc k (by omega), Bool.or_false]
        · rw [if_neg hb]; exact hacc k (by omega)

/-- Decoding one group undoes the 7-bit masking given the MSB byte's bits. -/
theorem decodeChunk_eq (msb : Nat) (chunk : List Nat) :
    ∀ (j : Nat),
      (∀ t, t < chunk.length →
        msb.testBit (6 - (j + t)) = decide (chunk.getD t 0 &&& 0x80 ≠ 0)) →
      (∀ x ∈ chunk, x < 256) →
      decodeChunk msb (chunk.map (fun x => x &&& 0x7F)) j = chunk := by
  induction chunk with
  | nil => intro j _ _; rfl
  | cons b rest ih =>
    intro j hbits hlt
    simp only [List.map_cons, decodeChunk, List.cons.injEq]
    refine ⟨?_, ?_⟩
    · have hb0 := hbits 0 (by simp)
      rw [Nat.add_zero] at hb0
      simp only [List.getD_cons_zero] at hb0
      rw [shiftRight_and_one, hb0]
      exact byte_recompose b (hlt b (by simp))
    · refine ih (j + 1) (fun t ht => ?_) (fun x hx => hlt x (by simp [hx]))
      have := hbits (t + 1) (by simpa using ht)
      have hpos : 6 - (j + (t + 1)) = 6 - ((j + 1) + t) := by omega
      rw [hpos] at this
      simpa using this

/-- decode inverts the v1 encode, chunk by chunk. -/
theorem decode_encode_v1_bounded :
    ∀ (n : Nat) (b : List Nat), b.length ≤ n → (∀ x ∈ b, x < 256) →
      decode_korg_7bit (encode_korg_7bit b "v1") = b := by
  intro n
  induction n with
  | zero =>
    intro b hlen _
    have : b = [] := List.eq_nil_of_length_eq_zero (Nat.le_zero.mp hlen)
    subst this; rfl
  | succ n ih =>
    intro b hlen hb
    match b with
    | [] => rfl
    | x :: rest =>
      rw [encode_cons]
      set chunk := (x :: rest).take 7 with hchunk
      have hclen : chunk.length = min 7 (x :: rest).length := List.length_take ..
      have hcle : chunk.length ≤ 7 := by omega
      have hcb : ∀ y ∈ chunk, y < 256 := fun y hy => hb y (List.mem_of_mem_take hy)
      have hbits : ∀ t, t < chunk.length →
          (msbLoop "v1" chunk 0 0).testBit (6 - (0 + t)) =
            decide (chunk.getD t 0 &&& 0x80 ≠ 0) :=
        fun t ht => msbLoop_testBit_get chunk 0 0 t (by omega) ht (fun k _ => Nat.zero_testBit k)
      have hdc : decodeChunk (msbLoop "v1" chunk 0 0) (chunk.map (fun y => y &&& 0x7F)) 0
          = chunk := decodeChunk_eq _ chunk 0 hbits hcb
      by_cases hshort : (x :: rest).length ≤ 7
      · have hdrop : (x :: rest).drop 7 = [] := List.drop_of_length_le hshort
        have hcfull : chunk = x :: rest := List.take_of_length_le hshort
        rw [hdrop]
        show decode_korg_7bit (_ :: chunk.map (fun y => y &&& 0x7F) ++
          encode_korg_7bit [] "v1") = _
        have henc : encode_korg_7bit [] "v1" = [] := rfl
        rw [henc, List.append_nil, decode_cons]
        have hmlen : (chunk.map (fun y => y &&& 0x7F)).length ≤ 7 := by
          simpa using hcle
        rw [List.take_of_length_le hmlen, List.drop_of_length_le hmlen]
        rw [hdc, hcfull]
        have hdnil : decode_korg_7bit [] = [] := rfl
        rw [hdnil, List.append_nil]
      · have hlong : 7 < (x :: rest).length := Nat.lt_of_not_le hshort
        have hclen7 : (chunk.map (fun y => y &&& 0x7F)).length = 7 := by
          simp only [List.length_map, hclen]; omega
        rw [List.cons_append, decode_cons]
        rw [List.take_left' hclen7, List.drop_left' hclen7, hdc]
        have hdlen : ((x :: rest).drop 7).length ≤ n := by
          simp only [List.length_drop]
          simp only [List.length_cons] at hlen ⊢
          omega
        rw [ih _ hdlen (fun y hy => hb y (List.mem_of_mem_drop hy))]
        exact List.take_append_drop 7 (x :: rest)

/-! ## Claim theorems -/

/-- C4 (counterexample): the v2 encode variant is not inverted by decode;
on the single byte 0x80 the round trip returns 0x00. -/
theorem bitpacker_v2_cex :
    decode_korg_7bit (encode_korg_7bit [0x80] "v2") = [0x00] ∧
      decode_korg_7bit (encode_korg_7bit [0x80] "v2") ≠ [0x80] := by
  constructor <;> decide

/-- C4 (amended): for every byte buffer b, decoding the v1 encoding returns
b exactly; decode assumes the v1 bit convention, so the v2 variant is not
inverted in general. -/
theorem bitpacker_inverse_v1 (b : List Nat) (hb : ∀ x ∈ b, x < 256) :
    decode_korg_7bit (encode_korg_7bit b "v1") = b :=
  decode_encode_v1_bounded b.length b le_rfl hb

theorem bitpacker_inverse_v1_witness :
    decode_korg_7bit (encode_korg_7bit [0x00, 0x80, 0x7F, 0xFF, 0x12, 0xAB, 0x34, 0xCD] "v1")
      = [0x00, 0x80, 0x7F, 0xFF, 0x12, 0xAB, 0x34, 0xCD] :=
  bitpacker_inverse_v1 [0x00, 0x80, 0x7F, 0xFF, 0x12, 0xAB, 0x34, 0xCD] (by decide)

/-- C5: the offset-64 encoding is a bijection between [-64, 63] and its byte
range, the encoder rejects -65 and 64 with a range error, and the decoder is
total on bytes, returning byte - 64. -/
theorem offset64_bijection :
    (∀ v : Int, -64 ≤ v → v ≤ 63 →
      ∃ b : Nat, toOffset64 v = .ok b ∧ fromOffset64 b = v) ∧
    toOffset64 (-65) = .error "Offset-64 value out of range -64~63: -65" ∧
    toOffset64 64 = .error "Offset-64 value out of range -64~63: 64" ∧
    (∀ byte : Nat, byte ≤ 255 → fromOffset64 byte = (byte : Int) - 64) := by
  refine ⟨?_, by decide, by decide, fun byte _ => rfl⟩
  intro v h1 h2
  refine ⟨(v + 64).toNat, ?_, ?_⟩
  · rw [toOffset64, if_neg (by omega)]
  · rw [fromOffset64, Int.toNat_of_nonneg (by omega)]
    omega

theorem offset64_bijection_witness :
    ∃ b : Nat, toOffset64 (-7) = .ok b ∧ fromOffset64 b = -7 :=
  offset64_bijection.1 (-7) (by decide) (by decide)

/-- C7: slot_name maps 1..128 to bank letter A..H plus a 2-digit zero-padded
number, 16 slots per letter, and rejects 0 and 129 with a range error. -/
theorem slot_name_correct :
    (∀ index : Nat, index < 129 → 1 ≤ index →
      slot_name index =
        .ok (String.mk [Char.ofNat (65 + (index - 1) / 16)] ++ pad2 ((index - 1) % 16 + 1))) ∧
    slot_name 1 = .ok "A01" ∧ slot_name 16 = .ok "A16" ∧
    slot_name 17 = .ok "B01" ∧ slot_name 128 = .ok "H16" ∧
    slot_name 0 = .error "Slot index must be in range 1..128" ∧
    slot_name 129 = .error "Slot index must be in range 1..128" := by
  refine ⟨?_, by decide, by decide, by decide, by decide, by decide, by decide⟩
  decide

theorem slot_name_correct_witness :
    slot_name 42 =
      .ok (String.mk [Char.ofNat (65 + (42 - 1) / 16)] ++ pad2 ((42 - 1) % 16 + 1)) :=
  slot_name_correct.1 42 (by decide) (by decide)

/-- C10: the MS2000Patch constructor fails exactly on inputs shorter than
254 bytes, and otherwise stores exactly the first 254 bytes as raw_data. -/
theorem patch_ctor_size :
    (∀ data : List Nat, (∃ p, mkPatch data = .ok p) ↔ 254 ≤ data.length) ∧
    (∀ data p, mkPatch data = .ok p →
      p.raw_data = data.take 254 ∧ p.raw_data.length = 254) := by
  constructor
  · intro data
    constructor
    · rintro ⟨p, hp⟩
      rw [mkPatch] at hp
      by_cases h : data.length < PATCH_SIZE
      · rw [if_pos h] at hp; exact absurd hp (by simp)
      · rw [PATCH_SIZE] at h; omega
    · intro h
      refine ⟨parsePatch (data.take PATCH_SIZE), ?_⟩
      rw [mkPatch, if_neg (by rw [PATCH_SIZE]; omega)]
  · intro data p hp
    rw [mkPatch] at hp
    by_cases h : data.length < PATCH_SIZE
    · rw [if_pos h] at hp; exact absurd hp (by simp)
    · rw [if_neg h] at hp
      have hp2 : p = parsePatch (data.take PATCH_SIZE) := by
        cases hp; rfl
      subst hp2
      rw [PATCH_SIZE] at h ⊢
      refine ⟨rfl, ?_⟩
      simp only [parsePatch, List.length_take]
      omega

@[simp] theorem except_bind_ok {ε α β : Type} (a : α) (f : α → Except ε β) :
    (Except.ok a : Except ε α) >>= f = f a := rfl

@[simp] theorem except_bind_error {ε α β : Type} (e : ε) (f : α → Except ε β) :
    (Except.error e : Except ε α) >>= f = .error e := rfl

@[simp] theorem except_pure {msg val : Type} (a : val) :
    (pure a : Except msg val) = .ok a := rfl

theorem bind_eq_ok {ε α β : Type} {m : Except ε α} {f : α → Except ε β} {b : β}
    (h : m >>= f = .ok b) : ∃ a, m = .ok a ∧ f a = .ok b := by
  cases m with
  | error e => rw [except_bind_error] at h; exact absurd h (by simp)
  | ok a => exact ⟨a, rfl, h⟩

theorem setByteChecked_ok {data : List Nat} {i : Nat} {v : Int} {out : List Nat}
    (h : setByteChecked data i v = .ok out) :
    out = data.set i v.toNat ∧ 0 ≤ v ∧ v < 256 := by
  rw [setByteChecked] at h
  by_cases hc : 0 ≤ v ∧ v < 256
  · rw [if_pos hc] at h
    cases h
    exact ⟨rfl, hc⟩
  · rw [if_neg hc] at h
    exact absurd h (by simp)

theorem getD_set_of_ne (xs : List Nat) (i j v : Nat) (h : i ≠ j) :
    (xs.set i v).getD j 0 = xs.getD j 0 := by
  simp [List.getD_eq_getElem?_getD, List.getElem?_set_ne h]

theorem getD_set_self_lt (l : List Nat) (i v : Nat) (h : i < l.length) :
    (l.set i v).getD i 0 = v := by
  simp [List.getD_eq_getElem?_getD, List.getElem?_set_self h]

theorem getD_writeMasked_of_ne (l : List Nat) (i j v m : Nat) (h : i ≠ j) :
    (writeMasked l i v m).getD j 0 = l.getD j 0 := by
  rw [writeMasked]
  exact getD_set_of_ne _ _ _ _ h

/-- Tactic-sized preservation lemmas: each paragraph of the encoder touches
only its own byte range. -/
theorem encTimVoice_preserves (t : Timbre) (offset : Nat) (data : List Nat)
    (k : Nat) (hk : k < offset + 5 ∨ offset + 51 < k) :
    (encTimVoice t offset data).getD k 0 = data.getD k 0 := by
  rw [encTimVoice]
  rw [getD_set_of_ne] <;> try omega

theorem encTimOsc1_preserves (t : Timbre) (offset : Nat) (data : List Nat)
    (k : Nat) (hk : k < offset + 5 ∨ offset + 51 < k) :
    (encTimOsc1 t offset data).getD k 0 = data.getD k 0 := by
  simp only [encTimOsc1]
  repeat (first
    | (rw [getD_set_of_ne] <;> try omega)
    | (rw [getD_writeMasked_of_ne] <;> try omega)
    | split)

theorem encTimOsc2_preserves {t : Timbre} {offset : Nat} {data out : List Nat}
    (h : encTimOsc2 t offset data = .ok out) (k : Nat)
    (hk : k < offset + 5 ∨ offset + 51 < k) :
    out.getD k 0 = data.getD k 0 := by
  simp only [encTimOsc2] at h
  obtain ⟨v1, h1, h⟩ := bind_eq_ok h
  obtain ⟨v2, h2, h⟩ := bind_eq_ok h
  rw [except_pure] at h
  cases h
  repeat (rw [getD_writeMasked_of_ne] <;> try omega)

theorem encTimMixer_preserves (t : Timbre) (offset : Nat) (data : List Nat)
    (k : Nat) (hk : k < offset + 5 ∨ offset + 51 < k) :
    (encTimMixer t offset data).getD k 0 = data.getD k 0 := by
  rw [encTimMixer]
  repeat (rw [getD_set_of_ne] <;> try omega)

theorem encTimFilter_preserves {t : Timbre} {offset : Nat} {data out : List Nat}
    (h : encTimFilter t offset data = .ok out) (k : Nat)
    (hk : k < offset + 5 ∨ offset + 51 < k) :
    out.getD k 0 = data.getD k 0 := by
  simp only [encTimFilter] at h
  obtain ⟨v1, h1, h⟩ := bind_eq_ok h
  obtain ⟨v2, h2, h⟩ := bind_eq_ok h
  obtain ⟨v3, h3, h⟩ := bind_eq_ok h
  rw [except_pure] at h
  cases h
  repeat (first
    | (rw [getD_set_of_ne] <;> try omega)
    | (rw [getD_writeMasked_of_ne] <;> try omega))

theorem encTimAmp_preserves {voice_mode : String} {t : Timbre} {offset : Nat}
    {data out : List Nat}
    (h : encTimAmp voice_mode t offset data = .ok out) (k : Nat)
    (hk : k < offset + 5 ∨ offset + 51 < k) :
    out.getD k 0 = data.getD k 0 := by
  simp only [encTimAmp] at h
  obtain ⟨v1, h1, h⟩ := bind_eq_ok h
  obtain ⟨v2, h2, h⟩ := bind_eq_ok h
  obtain ⟨v3, h3, h⟩ := bind_eq_ok h
  rw [except_pure] at h
  cases h
  repeat (first
    | (rw [getD_set_of_ne] <;> try omega)
    | (rw [getD_writeMasked_of_ne] <;> try omega)
    | split)

theorem encTimEnvelopes_preserves (t : Timbre) (offset : Nat) (data : List Nat)
    (k : Nat) (hk : k < offset + 5 ∨ offset + 51 < k) :
    (encTimEnvelopes t offset data).getD k 0 = data.getD k 0 := by
  simp only [encTimEnvelopes]
  repeat (rw [getD_set_of_ne] <;> try omega)

theorem encTimLFOs_preserves (t : Timbre) (offset : Nat) (data : List Nat)
    (k : Nat) (hk : k < offset + 5 ∨ offset + 51 < k) :
    (encTimLFOs t offset data).getD k 0 = data.getD k 0 := by
  simp only [encTimLFOs]
  repeat (first
    | (rw [getD_set_of_ne] <;> try omega)
    | (rw [getD_writeMasked_of_ne] <;> try omega))

theorem encTimRoute_preserves {route : PatchRoute} {base_pos : Nat}
    {data out : List Nat}
    (h : encTimRoute route base_pos data = .ok out) (k : Nat)
    (hk : k ≠ base_pos ∧ k ≠ base_pos + 1) :
    out.getD k 0 = data.getD k 0 := by
  simp only [encTimRoute] at h
  obtain ⟨v1, h1, h⟩ := bind_eq_ok h
  rw [except_pure] at h
  cases h
  repeat (rw [getD_set_of_ne] <;> try omega)

theorem encTimMatrix_preserves {t : Timbre} {offset : Nat} {data out : List Nat}
    (h : encTimMatrix t offset data = .ok out) (k : Nat)
    (hk : k < offset + 5 ∨ offset + 51 < k) :
    out.getD k 0 = data.getD k 0 := by
  simp only [encTimMatrix] at h
  obtain ⟨d1, hr1, h⟩ := bind_eq_ok h
  obtain ⟨d2, hr2, h⟩ := bind_eq_ok h
  obtain ⟨d3, hr3, h⟩ := bind_eq_ok h
  rw [encTimRoute_preserves h k (by omega),
    encTimRoute_preserves hr3 k (by omega),
    encTimRoute_preserves hr2 k (by omega),
    encTimRoute_preserves hr1 k (by omega)]

/-- encode_timbre writes only bytes offset+5 .. offset+51. -/
theorem encodeTimbre_preserves {voice_mode : String} {timbre : Option Timbre}
    {offset : Nat} {data out : List Nat}
    (h : encodeTimbre voice_mode timbre offset data = .ok out) :
    ∀ k, (k < offset + 5 ∨ offset + 51 < k) → out.getD k 0 = data.getD k 0 := by
  intro k hk
  cases timbre with
  | none =>
    simp only [encodeTimbre, except_pure] at h
    cases h
    rfl
  | some t =>
    simp only [encodeTimbre] at h
    obtain ⟨d1, h1, h⟩ := bind_eq_ok h
    obtain ⟨d2, h2, h⟩ := bind_eq_ok h
    obtain ⟨d3, h3, h⟩ := bind_eq_ok h
    rw [encTimMatrix_preserves h k hk,
      encTimLFOs_preserves _ _ _ _ hk,
      encTimEnvelopes_preserves _ _ _ _ hk,
      encTimAmp_preserves h3 k hk,
      encTimFilter_preserves h2 k hk,
      encTimMixer_preserves _ _ _ _ hk,
      encTimOsc2_preserves h1 k hk,
      encTimOsc1_preserves _ _ _ _ hk,
      encTimVoice_preserves _ _ _ _ hk]

theorem bfVoice_preserves (record : PatchRecord) (data : List Nat) (k : Nat)
    (hk : k < 16 ∨ 33 < k) : (bfVoice record data).getD k 0 = data.getD k 0 := by
  simp only [bfVoice]
  rw [getD_writeMasked_of_ne] <;> try omega

theorem bfScale_preserves (record : PatchRecord) (data : List Nat) (k : Nat)
    (hk : k < 16 ∨ 33 < k) : (bfScale record data).getD k 0 = data.getD k 0 := by
  simp only [bfScale]
  repeat (rw [getD_set_of_ne] <;> try omega)

theorem bfDelay_preserves {record : PatchRecord} {data out : List Nat}
    (h : bfDelay record data = .ok out) (k : Nat)
    (hk : k < 16 ∨ 33 < k) : out.getD k 0 = data.getD k 0 := by
  simp only [bfDelay] at h
  obtain ⟨heq, -, -⟩ := setByteChecked_ok h
  subst heq
  repeat (rw [getD_set_of_ne] <;> try omega)

theorem bfModFx_preserves {record : PatchRecord} {data out : List Nat}
    (h : bfModFx record data = .ok out) (k : Nat)
    (hk : k < 16 ∨ 33 < k) : out.getD k 0 = data.getD k 0 := by
  simp only [bfModFx] at h
  obtain ⟨heq, -, -⟩ := setByteChecked_ok h
  subst heq
  repeat (rw [getD_set_of_ne] <;> try omega)

theorem bfEq_preserves (record : PatchRecord) (data : List Nat) (k : Nat)
    (hk : k < 16 ∨ 33 < k) : (bfEq record data).getD k 0 = data.getD k 0 := by
  simp only [bfEq]
  repeat (rw [getD_set_of_ne] <;> try omega)

theorem bfArp_preserves (record : PatchRecord) (data : List Nat) (k : Nat)
    (hk : k < 16 ∨ 33 < k) : (bfArp record data).getD k 0 = data.getD k 0 := by
  simp only [bfArp]
  repeat (rw [getD_set_of_ne] <;> try omega)

/-- build_patch_bytes after the name step writes only bytes 16..33, the
first timbre block 43..89, and (in Split and Layer modes only) the second
timbre block 139..185. -/
theorem buildFields_preserves {record : PatchRecord} {data out : List Nat}
    (h : buildFields record data = .ok out) (k : Nat)
    (hk : k < 16 ∨ (134 ≤ k ∧
      ¬ (record.voice_mode = "Split" ∨ record.voice_mode = "Layer"))) :
    out.getD k 0 = data.getD k 0 := by
  simp only [buildFields] at h
  obtain ⟨dD, hD, h⟩ := bind_eq_ok h
  obtain ⟨dM, hM, h⟩ := bind_eq_ok h
  obtain ⟨dT1, hT1, h⟩ := bind_eq_ok h
  have hk33 : k < 16 ∨ 33 < k := by omega
  have hkT : k < 38 + 5 ∨ 38 + 51 < k := by omega
  have step2 : out.getD k 0 = dT1.getD k 0 := by
    by_cases hm : record.voice_mode = "Split" ∨ record.voice_mode = "Layer"
    · rw [if_pos hm] at h
      have hk134 : k < 134 + 5 ∨ 134 + 51 < k := by
        rcases hk with hlo | ⟨h1, h2⟩
        · omega
        · exact absurd hm h2
      exact encodeTimbre_preserves h k hk134
    · rw [if_neg hm, except_pure] at h
      cases h
      rfl
  rw [step2, encodeTimbre_preserves hT1 k hkT,
    bfArp_preserves _ _ _ hk33, bfEq_preserves _ _ _ hk33,
    bfModFx_preserves hM k hk33, bfDelay_preserves hD k hk33,
    bfScale_preserves _ _ _ hk33, bfVoice_preserves _ _ _ hk33]

/-- The name step touches only bytes 0..11. -/
theorem applyName_getD_high (record : PatchRecord) (data : List Nat) (k : Nat)
    (hk : 12 ≤ k) : (applyName record data).getD k 0 = data.getD k 0 := by
  rw [applyName]
  by_cases hascii : (record.name.data.take 12).all (fun ch => ch.toNat < 128)
  · rw [if_pos hascii]
    have hlen12 : ((record.name.data.take 12).map Char.toNat ++
        List.replicate (12 - (record.name.data.take 12).length) 0x20).length = 12 := by
      simp only [List.length_append, List.length_map, List.length_replicate,
        List.length_take]
      omega
    have hle : ((record.name.data.take 12).map Char.toNat ++
        List.replicate (12 - (record.name.data.take 12).length) 0x20).length ≤ k := by
      rw [hlen12]; exact hk
    simp only [List.getD_eq_getElem?_getD]
    rw [List.getElem?_append_right hle, hlen12, List.getElem?_drop]
    have harith : 12 + (k - 12) = k := by omega
    rw [harith]
  · rw [if_neg hascii]

/-- On an ASCII name the name step writes the encoded name at 0..11. -/
theorem applyName_getD_low_ascii (record : PatchRecord) (data : List Nat) (k : Nat)
    (hk : k < 12)
    (hascii : (record.name.data.take 12).all (fun ch => ch.toNat < 128)) :
    (applyName record data).getD k 0 =
      ((record.name.data.take 12).map Char.toNat ++
        List.replicate (12 - (record.name.data.take 12).length) 0x20).getD k 0 := by
  rw [applyName, if_pos hascii]
  have hlen12 : ((record.name.data.take 12).map Char.toNat ++
      List.replicate (12 - (record.name.data.take 12).length) 0x20).length = 12 := by
    simp only [List.length_append, List.length_map, List.length_replicate,
      List.length_take]
    omega
  have hlt : k < ((record.name.data.take 12).map Char.toNat ++
      List.replicate (12 - (record.name.data.take 12).length) 0x20).length := by
    rw [hlen12]; exact hk
  simp only [List.getD_eq_getElem?_getD]
  rw [List.getElem?_append_left hlt]

/-- On a non-ASCII name the name step is the identity. -/
theorem applyName_eq_of_nonascii (record : PatchRecord) (data : List Nat)
    (hascii : ¬ (record.name.data.take 12).all (fun ch => ch.toNat < 128)) :
    applyName record data = data := by
  rw [applyName, if_neg hascii]

/-- C9: in every timbre produced by parsing, the amp switch field is GATE
exactly when the distortion field is true (both decode bit 0 of the byte at
timbre offset + 27), and the parser never reads the other bits of that byte
(in particular not the bit-6 gate flag written by the builder): any change
to that byte preserving bit 0 leaves the extracted timbre unchanged. -/
theorem amp_switch_distortion :
    (∀ (p : MS2000Patch) (t : Timbre),
      ((extract_full_parameters p).timbre1 = some t ∨
        (extract_full_parameters p).timbre2 = some t) →
      (t.amp_switch = "GATE" ↔ t.amp_distortion = true)) ∧
    (∀ (raw : List Nat) (offset v : Nat), offset + 27 < raw.length →
      v &&& 0x01 = raw.getD (offset + 27) 0 &&& 0x01 →
      extractTimbre (raw.set (offset + 27) v) offset = extractTimbre raw offset) := by
  constructor
  · have key : ∀ (raw : List Nat) (offset : Nat),
        ((extractTimbre raw offset).amp_switch = "GATE" ↔
          (extractTimbre raw offset).amp_distortion = true) := by
      intro raw offset
      by_cases h : raw.getD (offset + 27) 0 &&& 0x01 ≠ 0 <;>
        simp [extractTimbre, h]
    intro p t ht
    rcases ht with h1 | h2
    · simp only [extract_full_parameters, Option.some.injEq] at h1
      exact h1 ▸ key _ _
    · simp only [extract_full_parameters] at h2
      by_cases hv : p.voice_mode = "Split" ∨ p.voice_mode = "Layer"
      · rw [if_pos hv] at h2
        simp only [Option.some.injEq] at h2
        exact h2 ▸ key _ _
      · rw [if_neg hv] at h2
        exact absurd h2 (by simp)
  · intro raw offset v hlen hbit
    have hself : (raw.set (offset + 27) v).getD (offset + 27) 0 = v :=
      getD_set_self_lt _ _ _ hlen
    have hne : ∀ j : Nat, offset + 27 ≠ j →
        (raw.set (offset + 27) v).getD j 0 = raw.getD j 0 :=
      fun j hj => getD_set_of_ne _ _ _ _ hj
    simp only [extractTimbre, extractRoute]
    simp only [hne (offset + 5) (by omega), hne (offset + 7) (by omega),
      hne (offset + 8) (by omega), hne (offset + 9) (by omega),
      hne (offset + 10) (by omega), hne (offset + 12) (by omega),
      hne (offset + 13) (by omega), hne (offset + 14) (by omega),
      hne (offset + 16) (by omega), hne (offset + 17) (by omega),
      hne (offset + 18) (by omega), hne (offset + 19) (by omega),
      hne (offset + 20) (by omega), hne (offset + 21) (by omega),
      hne (offset + 22) (by omega), hne (offset + 23) (by omega),
      hne (offset + 24) (by omega), hne (offset + 25) (by omega),
      hne (offset + 26) (by omega), hne (offset + 28) (by omega),
      hne (offset + 29) (by omega), hne (offset + 30) (by omega),
      hne (offset + 31) (by omega), hne (offset + 32) (by omega),
      hne (offset + 33) (by omega), hne (offset + 34) (by omega),
      hne (offset + 35) (by omega), hne (offset + 36) (by omega),
      hne (offset + 37) (by omega), hne (offset + 38) (by omega),
      hne (offset + 39) (by omega), hne (offset + 40) (by omega),
      hne (offset + 41) (by omega), hne (offset + 42) (by omega),
      hne (offset + 43) (by omega),
      hne (offset + 44 + 0 * 2) (by omega), hne (offset + 45 + 0 * 2) (by omega),
      hne (offset + 44 + 1 * 2) (by omega), hne (offset + 45 + 1 * 2) (by omega),
      hne (offset + 44 + 2 * 2) (by omega), hne (offset + 45 + 2 * 2) (by omega),
      hne (offset + 44 + 3 * 2) (by omega), hne (offset + 45 + 3 * 2) (by omega),
      hself, hbit]

theorem amp_switch_distortion_witness :
    ((extractTimbre (List.replicate 66 3) 38).amp_switch = "GATE" ↔
      (extractTimbre (List.replicate 66 3) 38).amp_distortion = true) ∧
    extractTimbre ((List.replicate 66 3).set 65 0x43) 38 =
      extractTimbre (List.replicate 66 3) 38 := by
  constructor
  · exact amp_switch_distortion.1 (parsePatch (List.replicate 66 3))
      (extractTimbre (List.replicate 66 3) 38)
      (Or.inl (by simp only [extract_full_parameters, parsePatch]))
  · exact amp_switch_distortion.2 (List.replicate 66 3) 38 0x43
      (by rw [List.length_replicate]; omega) (by decide)

/-- truncToLastNonzero keeps a prefix of its input. -/
theorem truncToLastNonzero_prefix (d : List Nat) : truncToLastNonzero d <+: d := by
  rw [truncToLastNonzero]
  by_cases h : (d.reverse.dropWhile (fun b => b = 0)).reverse = []
  · rw [if_pos h]
  · rw [if_neg h]
    have h1 : ((d.reverse.dropWhile (fun b => b = 0)).reverse).reverse <:+ d.reverse := by
      rw [List.reverse_reverse]
      exact List.dropWhile_suffix _
    exact List.reverse_suffix.mp h1

/-- A prefix agrees with the whole list below its length. -/
theorem prefix_getD_eq {l1 l2 : List Nat} (h : l1 <+: l2) (k : Nat)
    (hk : k < l1.length) : l2.getD k 0 = l1.getD k 0 := by
  obtain ⟨t, rfl⟩ := h
  simp [List.getD_eq_getElem?_getD, List.getElem?_append_left hk]

/-- C6 (counterexample): repair is not idempotent on every input.  On the
6-byte file F0 42 00 58 00 00 repair returns the 5-byte file F0 42 00 58 F7,
which a second repair then rejects as too short. -/
theorem repair_idem_cex :
    repair_sysex [0xF0, 0x42, 0x00, 0x58, 0x00, 0x00] =
      .ok ([0xF0, 0x42, 0x00, 0x58, 0xF7], ["appended_f7"]) ∧
    repair_sysex [0xF0, 0x42, 0x00, 0x58, 0xF7] =
      .error "Not a valid MS2000 SysEx file" := by
  constructor <;> rfl

/-- C6 (amended): repairing a repair output changes nothing provided that
output is still at least 6 bytes long (a second application then reports no
changes); a valid file already ending in 0xF7 is returned unchanged with an
empty changes list; a valid file not ending in 0xF7 has its trailing zeros
truncated back to the last non-zero byte and a single 0xF7 appended. -/
theorem repair_amended :
    (∀ (d out : List Nat) (ch : List String),
      repair_sysex d = .ok (out, ch) → 6 ≤ out.length →
      repair_sysex out = .ok (out, [])) ∧
    (∀ d : List Nat,
      ¬ (d.length < 6 ∨ d.getD 0 0 ≠ 0xF0 ∨ d.getD 1 0 ≠ 0x42 ∨ d.getD 3 0 ≠ 0x58) →
      d.getLast? = some 0xF7 → repair_sysex d = .ok (d, [])) ∧
    (∀ d : List Nat,
      ¬ (d.length < 6 ∨ d.getD 0 0 ≠ 0xF0 ∨ d.getD 1 0 ≠ 0x42 ∨ d.getD 3 0 ≠ 0x58) →
      d.getLast? ≠ some 0xF7 →
      repair_sysex d = .ok (truncToLastNonzero d ++ [0xF7], ["appended_f7"])) := by
  refine ⟨?_, ?_, ?_⟩
  · intro d out ch h hlen
    rw [repair_sysex] at h
    by_cases hv : d.length < 6 ∨ d.getD 0 0 ≠ 0xF0 ∨ d.getD 1 0 ≠ 0x42 ∨
        d.getD 3 0 ≠ 0x58
    · rw [if_pos hv] at h
      exact absurd h (by simp)
    · rw [if_neg hv] at h
      push_neg at hv
      obtain ⟨hv1, hv2, hv3, hv4⟩ := hv
      by_cases ht : d.getLast? ≠ some 0xF7
      · rw [if_pos ht] at h
        have hout : out = truncToLastNonzero d ++ [0xF7] := by
          cases h; rfl
        subst hout
        have hpre := truncToLastNonzero_prefix d
        have htlen : (truncToLastNonzero d).length + 1 =
            (truncToLastNonzero d ++ [0xF7]).length := by simp
        have hk : ∀ k, k < (truncToLastNonzero d).length →
            (truncToLastNonzero d ++ [0xF7]).getD k 0 = d.getD k 0 := by
          intro k hkk
          rw [prefix_getD_eq (List.prefix_append _ _) k hkk,
            prefix_getD_eq hpre k hkk]
        rw [repair_sysex, if_neg ?hv2, if_neg (by simp [List.getLast?_concat])]
        case hv2 =>
          push_neg
          refine ⟨by omega, ?_, ?_, ?_⟩
          · rw [hk 0 (by omega)]; exact hv2
          · rw [hk 1 (by omega)]; exact hv3
          · rw [hk 3 (by omega)]; exact hv4
      · rw [if_neg ht] at h
        have hout : out = d ∧ ch = [] := by
          cases h; exact ⟨rfl, rfl⟩
        obtain ⟨rfl, rfl⟩ := hout
        rw [repair_sysex, if_neg (by push_neg; exact ⟨by omega, hv2, hv3, hv4⟩),
          if_neg ht]
  · intro d hv ht
    rw [repair_sysex, if_neg hv, if_neg (by simp [ht])]
  · intro d hv ht
    rw [repair_sysex, if_neg hv, if_pos ht]

theorem repair_amended_witness :
    repair_sysex [0xF0, 0x42, 0x00, 0x58, 0x01, 0xF7] =
      .ok ([0xF0, 0x42, 0x00, 0x58, 0x01, 0xF7], []) :=
  repair_amended.1 [0xF0, 0x42, 0x00, 0x58, 0x01, 0x00, 0x00]
    [0xF0, 0x42, 0x00, 0x58, 0x01, 0xF7] ["appended_f7"] (by rfl) (by decide)


set_option maxRecDepth 40000 in
/-- C3 (counterexample): a record whose name contains the non-ASCII
character U+00FC in its first 12 characters is not rejected: the build
succeeds, silently skipping the name write (bytes 0..11 stay zero). -/
theorem build_nonascii_cex :
    ((nonAsciiRec.name.data.take 12).all (fun ch => ch.toNat < 128) = false) ∧
    buildPatchBytes nonAsciiRec = .ok (buildOk nonAsciiRec) ∧
    (buildOk nonAsciiRec).take 12 = List.replicate 12 0 := by
  refine ⟨by decide, by decide, by decide⟩

/-- C3 (amended): a name whose first 12 characters contain a non-ASCII
character is not written at all (the build succeeds and bytes 0..11 keep the
seeded base values); an ASCII name is truncated to 12 characters,
left-justified and space-padded, and written to bytes 0..11. -/
theorem build_name_amended :
    (∀ (record : PatchRecord) (out : List Nat),
      buildPatchBytes record = .ok out →
      ¬ ((record.name.data.take 12).all (fun ch => ch.toNat < 128) = true) →
      ∀ k, k < 12 → out.getD k 0 = (seedData record).getD k 0) ∧
    (∀ (record : PatchRecord) (out : List Nat),
      buildPatchBytes record = .ok out →
      ((record.name.data.take 12).all (fun ch => ch.toNat < 128) = true) →
      ∀ k, k < 12 →
        out.getD k 0 =
          ((record.name.data.take 12).map Char.toNat ++
            List.replicate (12 - (record.name.data.take 12).length) 0x20).getD k 0) := by
  constructor
  · intro record out h hascii k hk
    rw [buildPatchBytes] at h
    rw [buildFields_preserves h k (Or.inl (by omega)),
      applyName_eq_of_nonascii record _ hascii]
  · intro record out h hascii k hk
    rw [buildPatchBytes] at h
    rw [buildFields_preserves h k (Or.inl (by omega)),
      applyName_getD_low_ascii record _ k hk hascii]

set_option maxRecDepth 40000 in
theorem build_name_amended_witness :
    (buildOk nonAsciiRec).getD 3 0 = (seedData nonAsciiRec).getD 3 0 :=
  build_name_amended.1 nonAsciiRec (buildOk nonAsciiRec) (by decide)
    (by decide) 3 (by decide)

set_option maxRecDepth 40000 in
/-- C2 (counterexample): build_patch_bytes silently clamps byte-domain
scalars instead of failing: split_point 300 is written as 255 and the build
succeeds. -/
theorem build_clamps_cex :
    clampRec.split_point = 300 ∧
    buildPatchBytes clampRec = .ok (buildOk clampRec) ∧
    (buildOk clampRec).getD 18 0 = 255 := by
  refine ⟨by decide, by decide, by decide⟩

/-- C2 (amended): a value outside an offset-64 field's declared domain makes
the build fail with a range error carrying the offending value and the valid
range (shown for the osc2 semitone, domain -24..24, the first offset-64
field the builder encodes), provided the two enum assignments that feed raw
lookup results to the bytearray are in byte range; byte-domain scalar fields
are silently clamped instead (see the counterexample). -/
theorem build_range_error_amended :
    ∀ (record : PatchRecord) (t : Timbre),
      record.timbre1 = some t →
      (t.osc2_semitone < -24 ∨ t.osc2_semitone > 24) →
      (0 ≤ lookup DELAY_TYPES record.delay_type ∧
        lookup DELAY_TYPES record.delay_type < 256) →
      (0 ≤ lookup MOD_TYPES record.mod_type ∧
        lookup MOD_TYPES record.mod_type < 256) →
      buildPatchBytes record =
        .error s!"Offset-64 value out of range -24~24: {t.osc2_semitone}" := by
  intro record t ht hsem hd hm
  rw [buildPatchBytes]
  simp only [buildFields, bfDelay, bfModFx, setByteChecked, if_pos hd, if_pos hm,
    except_bind_ok, ht, encodeTimbre, encTimOsc2]
  rw [toOffset64, if_pos hsem]
  rfl


theorem build_range_error_amended_witness :
    buildPatchBytes { plainRec with timbre1 := some semDemoTimbre } =
      .error "Offset-64 value out of range -24~24: 99" :=
  build_range_error_amended { plainRec with timbre1 := some semDemoTimbre }
    semDemoTimbre (by rfl) (by decide) (by decide) (by decide)

/-- C8: build_patch_bytes writes the second timbre block only in Split and
Layer voice modes: in every other mode all bytes from offset 134 on are
exactly the seeded base bytes; and extract_full_parameters includes a
timbre2 sub-record exactly in Split and Layer modes. -/
theorem dual_timbre_frame :
    (∀ (record : PatchRecord) (out : List Nat),
      buildPatchBytes record = .ok out →
      ¬ (record.voice_mode = "Split" ∨ record.voice_mode = "Layer") →
      ∀ k, 134 ≤ k → out.getD k 0 = (seedData record).getD k 0) ∧
    (∀ p : MS2000Patch,
      (extract_full_parameters p).timbre2.isSome =
        decide (p.voice_mode = "Split" ∨ p.voice_mode = "Layer")) := by
  constructor
  · intro record out h hmode k hk
    rw [buildPatchBytes] at h
    rw [buildFields_preserves h k (Or.inr ⟨hk, hmode⟩),
      applyName_getD_high record _ k (by omega)]
  · intro p
    simp only [extract_full_parameters]
    by_cases hv : p.voice_mode = "Split" ∨ p.voice_mode = "Layer"
    · rw [if_pos hv]
      simp [hv]
    · rw [if_neg hv]
      simp [hv]


set_option maxRecDepth 40000 in
theorem dual_timbre_frame_witness :
    (buildOk frameRec).getD 200 0 = (seedData frameRec).getD 200 0 :=
  dual_timbre_frame.1 frameRec (buildOk frameRec) (by decide) (by decide)
    200 (by decide)

theorem patch_ctor_size_witness :
    (∃ p, mkPatch (List.replicate 300 7) = .ok p) ∧
      ∀ p, mkPatch (List.replicate 300 7) = .ok p →
        p.raw_data = (List.replicate 300 7).take 254 ∧ p.raw_data.length = 254 :=
  ⟨(patch_ctor_size.1 (List.replicate 300 7)).mpr (by rw [List.length_replicate]; omega),
   fun p hp => patch_ctor_size.2 (List.replicate 300 7) p hp⟩


theorem set_of_getD (l : List Nat) (k v : Nat) (h : v = l.getD k 0) :
    l.set k v = l := by
  subst h
  induction l generalizing k with
  | nil => rfl
  | cons a t ih =>
    cases k with
    | zero => rfl
    | succ k => simp only [List.set_cons_succ, List.getD_cons_succ, ih]

theorem writeMasked_of_getD (l : List Nat) (i v m : Nat)
    (h : (l.getD i 0 - (l.getD i 0 &&& m)) ||| (v &&& m) = l.getD i 0) :
    writeMasked l i v m = l := by
  rw [writeMasked]
  exact set_of_getD _ _ _ h

theorem getD_lt_256 {r : List Nat} (hb : ∀ x ∈ r, x < 256) (k : Nat) :
    r.getD k 0 < 256 := by
  induction r generalizing k with
  | nil => simp
  | cons a t ih =>
    cases k with
    | zero => exact hb a (by simp)
    | succ k =>
      rw [List.getD_cons_succ]
      exact ih (fun x hx => hb x (by simp [hx])) k

set_option maxRecDepth 4096 in
theorem byte_and_255 : ∀ b < 256, b &&& 0xFF = b := by decide

theorem map_and255_id {l : List Nat} (hb : ∀ x ∈ l, x < 256) :
    l.map (fun b => b &&& 0xFF) = l := by
  induction l with
  | nil => rfl
  | cons a t ih =>
    simp only [List.map_cons, List.cons.injEq]
    exact ⟨byte_and_255 a (hb a (by simp)), ih (fun x hx => hb x (by simp [hx]))⟩

/-- Step 1 of the round trip: re-seeding from the recorded base bytes gives
back the original buffer. -/
theorem seedData_roundtrip (r : List Nat) (hlen : r.length = 254)
    (hb : ∀ x ∈ r, x < 256) :
    seedData (extract_full_parameters (parsePatch r)) = r := by
  have hraw : (extract_full_parameters (parsePatch r)).system_base_patch
      = r.take PATCH_SIZE := rfl
  have htake : r.take PATCH_SIZE = r := by
    rw [PATCH_SIZE, ← hlen, List.take_length]
  rw [seedData, hraw]
  simp only [htake, map_and255_id hb]
  rw [if_pos (show r ≠ [] by intro hnil; rw [hnil] at hlen; simp at hlen)]
  have h0 : PATCH_SIZE - r.length = 0 := by rw [PATCH_SIZE]; omega
  rw [h0, List.replicate_zero, List.append_nil]

set_option maxRecDepth 2048 in
theorem char_ofNat_toNat : ∀ b < 128, (Char.ofNat b).toNat = b := by decide

set_option maxRecDepth 2048 in
theorem spaceChar_iff_byte : ∀ b < 128,
    isPySpaceChar (Char.ofNat b) = isPySpaceByte b := by decide

theorem dropWhile_congr {α : Type} {p q : α → Bool} :
    ∀ l : List α, (∀ x ∈ l, p x = q x) → l.dropWhile p = l.dropWhile q := by
  intro l
  induction l with
  | nil => intro _; rfl
  | cons a t ih =>
    intro h
    rw [List.dropWhile_cons, List.dropWhile_cons, h a (by simp)]
    split
    · exact ih (fun x hx => h x (by simp [hx]))
    · rfl

theorem mem_of_mem_pyRstrip {c : Char} {l : List Char} (h : c ∈ pyRstrip l) :
    c ∈ l := by
  rw [pyRstrip] at h
  rw [List.mem_reverse] at h
  have := List.dropWhile_sublist (l := l.reverse) (p := isPySpaceChar)
  exact List.mem_reverse.mp (this.mem h)

theorem mem_pyRstrip_of_not_space {c : Char} {l : List Char} (hc : c ∈ l)
    (hns : isPySpaceChar c = false) : c ∈ pyRstrip l := by
  rw [pyRstrip, List.mem_reverse]
  have hsplit := List.takeWhile_append_dropWhile (p := isPySpaceChar) (l := l.reverse)
  have hmem : c ∈ l.reverse := List.mem_reverse.mpr hc
  rw [← hsplit] at hmem
  rcases List.mem_append.mp hmem with h1 | h2
  · have := List.mem_takeWhile_imp h1
    rw [hns] at this
    exact absurd this (by simp)
  · exact h2

theorem pyRstrip_length_le (l : List Char) : (pyRstrip l).length ≤ l.length := by
  rw [pyRstrip, List.length_reverse]
  calc (l.reverse.dropWhile isPySpaceChar).length
      ≤ l.reverse.length := (List.dropWhile_sublist _).length_le
    _ = l.length := List.length_reverse _

/-- Step 2 of the round trip: rewriting the parsed name reproduces the
original 12 name bytes. -/
theorem applyName_roundtrip (r : List Nat) (hlen : r.length = 254)
    (hb : ∀ x ∈ r, x < 256) (hsafe : nameSafe r) :
    applyName (extract_full_parameters (parsePatch r)) r = r := by
  have hname : (extract_full_parameters (parsePatch r)).name
      = String.mk (pyRstrip (decodeAsciiReplace (r.take 12))) := rfl
  have hnblen : (r.take 12).length = 12 := by
    rw [List.length_take]; omega
  have hstriplen : (pyRstrip (decodeAsciiReplace (r.take 12))).length ≤ 12 := by
    calc (pyRstrip (decodeAsciiReplace (r.take 12))).length
        ≤ (decodeAsciiReplace (r.take 12)).length := pyRstrip_length_le _
      _ = 12 := by rw [decodeAsciiReplace, List.length_map, hnblen]
  have hdata : (extract_full_parameters (parsePatch r)).name.data.take 12
      = pyRstrip (decodeAsciiReplace (r.take 12)) := by
    rw [hname]
    exact List.take_of_length_le hstriplen
  rw [applyName, hdata]
  by_cases hall : ∀ b ∈ r.take 12, b < 128
  · -- ASCII name: the encoded, padded name equals the original bytes
    have hdec : ∀ b ∈ r.take 12, (fun b => if b < 128 then Char.ofNat b else '�') b
        = Char.ofNat b := by
      intro b hbm
      simp only [if_pos (hall b hbm)]
    have hchars : decodeAsciiReplace (r.take 12)
        = (r.take 12).map Char.ofNat := by
      rw [decodeAsciiReplace]
      exact List.map_congr_left hdec
    have hstrip : pyRstrip (decodeAsciiReplace (r.take 12))
        = (((r.take 12).reverse.dropWhile isPySpaceByte).reverse).map Char.ofNat := by
      rw [pyRstrip, hchars, ← List.map_reverse, List.dropWhile_map]
      simp only [Function.comp_def]
      rw [dropWhile_congr ((r.take 12).reverse)
        (fun x hx => spaceChar_iff_byte x
          (hall x (List.mem_reverse.mp hx)))]
      rw [List.map_reverse]
    have hascii : (pyRstrip (decodeAsciiReplace (r.take 12))).all
        (fun ch => ch.toNat < 128) = true := by
      rw [List.all_eq_true]
      intro c hc
      have hcl := mem_of_mem_pyRstrip hc
      rw [hchars] at hcl
      obtain ⟨b, hbm, rfl⟩ := List.mem_map.mp hcl
      have := hall b hbm
      simp only [char_ofNat_toNat b this]
      exact decide_eq_true this
    rw [if_pos hascii, hstrip]
    -- the stripped bytes plus the space padding reassemble the name field
    have hmapmap : ((((r.take 12).reverse.dropWhile isPySpaceByte).reverse).map
        Char.ofNat).map Char.toNat
        = ((r.take 12).reverse.dropWhile isPySpaceByte).reverse := by
      rw [List.map_map]
      have : ∀ b ∈ (((r.take 12).reverse.dropWhile isPySpaceByte)).reverse,
          (Char.toNat ∘ Char.ofNat) b = id b := by
        intro b hbm
        have hbl : b ∈ r.take 12 := by
          rw [List.mem_reverse] at hbm
          exact List.mem_reverse.mp ((List.dropWhile_sublist _).mem hbm)
        exact char_ofNat_toNat b (hall b hbl)
      rw [List.map_congr_left this, List.map_id]
    have hsplit : r.take 12
        = ((r.take 12).reverse.dropWhile isPySpaceByte).reverse ++
          ((r.take 12).reverse.takeWhile isPySpaceByte).reverse := by
      conv_lhs => rw [← List.reverse_reverse (r.take 12),
        ← List.takeWhile_append_dropWhile (p := isPySpaceByte)
          (l := (r.take 12).reverse)]
      rw [List.reverse_append]
    have hws : ((r.take 12).reverse.takeWhile isPySpaceByte).reverse
        = List.replicate ((r.take 12).reverse.takeWhile isPySpaceByte).length 0x20 := by
      have hmem : ∀ b ∈ ((r.take 12).reverse.takeWhile isPySpaceByte).reverse,
          b = 0x20 := by
        intro b hbm
        exact hsafe hall b (List.mem_reverse.mp hbm)
      rw [← List.length_reverse ((r.take 12).reverse.takeWhile isPySpaceByte)]
      exact List.eq_replicate_of_mem hmem
    have hlens : ((r.take 12).reverse.dropWhile isPySpaceByte).length +
        ((r.take 12).reverse.takeWhile isPySpaceByte).length = 12 := by
      have := congrArg List.length
        (List.takeWhile_append_dropWhile (p := isPySpaceByte) (l := (r.take 12).reverse))
      simp only [List.length_append, List.length_reverse, hnblen] at this
      omega
    have hlenmap : ((((r.take 12).reverse.dropWhile isPySpaceByte).reverse).map
        Char.ofNat).length
        = (((r.take 12).reverse.dropWhile isPySpaceByte).reverse).length := by
      rw [List.length_map]
    rw [hmapmap, hlenmap]
    have hpad : 12 - (((r.take 12).reverse.dropWhile isPySpaceByte).reverse).length
        = ((r.take 12).reverse.takeWhile isPySpaceByte).length := by
      rw [List.length_reverse]; omega
    rw [hpad, ← hws, ← hsplit]
    exact List.take_append_drop 12 r
  · -- a non-ASCII byte in the name field: the replacement character blocks
    -- the write and the buffer is returned unchanged
    push_neg at hall
    obtain ⟨b0, hb0mem, hb0⟩ := hall
    have hc0 : ('�' : Char) ∈ decodeAsciiReplace (r.take 12) := by
      rw [decodeAsciiReplace]
      exact List.mem_map.mpr ⟨b0, hb0mem, by rw [if_neg (by omega)]⟩
    have hc0s : ('�' : Char) ∈ pyRstrip (decodeAsciiReplace (r.take 12)) :=
      mem_pyRstrip_of_not_space hc0 (by decide)
    rw [if_neg ?hne]
    case hne =>
      intro hcontra
      have := List.all_eq_true.mp hcontra _ hc0s
      exact absurd this (by decide)


/-! ## C1: byte-exact round trip proofs -/

set_option maxRecDepth 8192 in
theorem clampByte_id : ∀ b : Nat, b < 256 → clampByte (b : Int) = b := by decide

set_option maxRecDepth 8192 in
theorem off64_full_id : ∀ b < 256,
    toOffset64 (fromOffset64 (b &&& 127)) (-64) 63 = .ok (b &&& 127) := by decide

set_option maxRecDepth 8192 in
theorem wm127_id : ∀ b < 256, (b - (b &&& 127)) ||| (b &&& 127 &&& 127) = b := by decide

set_option maxRecDepth 8192 in
theorem osc1wave_id : ∀ b < 256,
    (b - (b &&& 7)) |||
      (imask (lookup OSC1_WAVES (mapChoice OSC1_WAVES (b &&& 7) "OSC1") (b &&& 7)) 8 &&& 7)
      = b := by decide

set_option maxRecDepth 8192 in
theorem dwgs_id : ∀ b < 256, b ≤ 63 → (b - (b &&& 63)) ||| (b &&& 63) = b := by decide

set_option maxRecDepth 8192 in
theorem osc2wave_id : ∀ b < 256,
    (b - (b &&& 3)) |||
      (imask (lookup OSC2_WAVES (mapChoice OSC2_WAVES (b &&& 3) "OSC2") (b &&& 3)) 4 &&& 3)
      = b := by decide

set_option maxRecDepth 8192 in
theorem osc2mod_id : ∀ b < 256,
    (b - (b &&& 48)) |||
      (imask (lookup MOD_SELECT (mapChoice MOD_SELECT (b >>> 4 &&& 3) "MOD") (b >>> 4 &&& 3)) 4
        <<< 4 &&& 48) = b := by decide

set_option maxRecDepth 8192 in
theorem semitone_id : ∀ b < 256, 40 ≤ b &&& 127 → b &&& 127 ≤ 88 →
    toOffset64 (fromOffset64 (b &&& 127)) (-24) 24 = .ok (b &&& 127) := by decide

set_option maxRecDepth 8192 in
theorem filtwave_id : ∀ b < 256,
    (b - (b &&& 3)) |||
      (imask (lookup FILTER_TYPES (mapChoice FILTER_TYPES (b &&& 3) "FILTER") (b &&& 3)) 4 &&& 3)
      = b := by decide

set_option maxRecDepth 8192 in
theorem ampSingle_id : ∀ b < 256, b = 64 ||| (b &&& 1) →
    ((64 ||| if pyUpper (if b &&& 1 ≠ 0 then "GATE" else "EG2") = "GATE" then 64 else 0) |||
      if decide (b &&& 1 ≠ 0) = true then 1 else 0) = b := by decide

set_option maxRecDepth 8192 in
theorem ampOther_id : ∀ b < 256, b >>> 6 &&& 1 = b &&& 1 →
    (((b - (b &&& 65)) |||
        if pyUpper (if b &&& 1 ≠ 0 then "GATE" else "EG2") = "GATE" then 64 else 0) |||
      if decide (b &&& 1 ≠ 0) = true then 1 else 0) = b := by decide

set_option maxRecDepth 8192 in
theorem lfo1wave_id : ∀ b < 256,
    (b - (b &&& 3)) |||
      (imask (lookup LFO1_WAVES (mapChoice LFO1_WAVES (b &&& 3) "LFO1") (b &&& 3)) 4 &&& 3)
      = b := by decide

set_option maxRecDepth 8192 in
theorem lfo2wave_id : ∀ b < 256,
    (b - (b &&& 3)) |||
      (imask (lookup LFO2_WAVES (mapChoice LFO2_WAVES (b &&& 3) "LFO2") (b &&& 3)) 4 &&& 3)
      = b := by decide

set_option maxRecDepth 8192 in
theorem tempoByte_id : ∀ b < 256,
    ((if decide (b &&& 1 ≠ 0) = true then b &&& 255 ||| 1 else b &&& 255 &&& 254) &&& 255)
      = b := by decide

set_option maxRecDepth 8192 in
theorem matrixByte_id : ∀ b < 256,
    imask (lookup PATCH_DEST_NAMES (mapChoice PATCH_DEST_NAMES (b >>> 4 &&& 15) "DEST")) 16
        <<< 4 |||
      imask (lookup PATCH_SOURCE_NAMES (mapChoice PATCH_SOURCE_NAMES (b &&& 15) "SRC")) 16
      = b := by decide

set_option maxRecDepth 8192 in
theorem inten_id : ∀ b < 256, b < 128 → b &&& 127 &&& 127 = b := by decide

set_option maxRecDepth 8192 in
theorem voiceByte_id : ∀ b < 256,
    (b - (b &&& 240)) |||
      (((b >>> 6 &&& 3 &&& 3 &&& 3) <<< 6 |||
        imask (lookup VOICE_MODES (VOICE_MODES.getD (b >>> 4 &&& 3) "")) 4 <<< 4) &&& 240)
      = b := by decide

set_option maxRecDepth 8192 in
theorem scaleByte_id : ∀ b < 256,
    (imask (lookup SCALE_KEYS
        (if b >>> 4 &&& 15 < 12 then SCALE_KEYS.getD (b >>> 4 &&& 15) ""
         else toString (b >>> 4 &&& 15))) 16 <<< 4 ||| b &&& 15 &&& 15) = b := by decide

set_option maxRecDepth 8192 in
theorem delay19_id : ∀ b < 256, b &&& 112 = 0 →
    ((if decide (b >>> 7 &&& 1 ≠ 0) = true then 128 else 0) ||| b &&& 15 &&& 15) = b := by
  decide

set_option maxRecDepth 8192 in
theorem delayType_id : ∀ b < 256,
    lookup DELAY_TYPES (choiceOrNum DELAY_TYPES b) = (b : Int) := by decide

set_option maxRecDepth 8192 in
theorem modType_id : ∀ b < 256,
    lookup MOD_TYPES (choiceOrNum MOD_TYPES b) = (b : Int) := by decide

set_option maxRecDepth 8192 in
theorem arp32_id : ∀ b < 256, b &&& 14 = 0 →
    (((if decide (b >>> 7 &&& 1 ≠ 0) = true then 128 else 0) |||
        (if decide (b >>> 6 &&& 1 ≠ 0) = true then 64 else 0)) |||
      (b >>> 4 &&& 3 &&& 3) <<< 4 |||
      (if decide (b &&& 1 ≠ 0) = true then 1 else 0)) = b := by decide

set_option maxRecDepth 8192 in
theorem arp33_id : ∀ b < 256,
    (1 ⊔ 16 ⊓ ((b >>> 4 &&& 15) + 1) - 1) <<< 4 |||
      imask (lookup ARP_TYPES (choiceOrNum ARP_TYPES (b &&& 15))) 16 = b := by decide

theorem tempoHi_id (a b : Nat) (ha : a < 256) (hb : b < 256) :
    (a <<< 8 ||| b) >>> 8 &&& 255 = a := by
  apply Nat.eq_of_testBit_eq
  intro j
  have h255 : (255 : Nat) = 2 ^ 8 - 1 := rfl
  rw [h255]
  simp only [Nat.testBit_and, Nat.testBit_shiftRight, Nat.testBit_or,
    Nat.testBit_shiftLeft, Nat.testBit_two_pow_sub_one]
  have hb8 : b.testBit (8 + j) = false := by
    apply Nat.testBit_lt_two_pow
    calc b < 256 := hb
      _ = 2 ^ 8 := rfl
      _ ≤ 2 ^ (8 + j) := Nat.pow_le_pow_right (by omega) (by omega)
  have hsub : 8 + j - 8 = j := by omega
  by_cases hj : j < 8
  · simp [hb8, hsub, hj]
  · have haj : a.testBit j = false := by
      apply Nat.testBit_lt_two_pow
      calc a < 256 := ha
        _ = 2 ^ 8 := rfl
        _ ≤ 2 ^ j := Nat.pow_le_pow_right (by omega) (by omega)
    simp [hb8, hsub, hj, haj]

theorem tempoLo_id (a b : Nat) (hb : b < 256) :
    (a <<< 8 ||| b) &&& 255 = b := by
  apply Nat.eq_of_testBit_eq
  intro j
  have h255 : (255 : Nat) = 2 ^ 8 - 1 := rfl
  rw [h255]
  simp only [Nat.testBit_and, Nat.testBit_or, Nat.testBit_shiftLeft,
    Nat.testBit_two_pow_sub_one]
  by_cases hj : j < 8
  · have hge : ¬ (j ≥ 8) := by omega
    simp [hj, hge]
  · have hbj : b.testBit j = false := by
      apply Nat.testBit_lt_two_pow
      calc b < 256 := hb
        _ = 2 ^ 8 := rfl
        _ ≤ 2 ^ j := Nat.pow_le_pow_right (by omega) (by omega)
    simp [hj, hbj]

theorem encTimVoice_roundtrip (r : List Nat) (o : Nat) (hb : ∀ x ∈ r, x < 256) :
    encTimVoice (extractTimbre r o) o r = r := by
  simp only [encTimVoice, extractTimbre]
  exact set_of_getD _ _ _ (clampByte_id _ (getD_lt_256 hb _))

theorem encTimOsc1_roundtrip (r : List Nat) (o : Nat) (hb : ∀ x ∈ r, x < 256) :
    encTimOsc1 (extractTimbre r o) o r = r := by
  simp only [encTimOsc1, extractTimbre]
  rw [writeMasked_of_getD r (o + 7) _ 7 (osc1wave_id _ (getD_lt_256 hb (o + 7)))]
  rw [set_of_getD _ _ _ (clampByte_id _ (getD_lt_256 hb (o + 8)))]
  rw [set_of_getD _ _ _ (clampByte_id _ (getD_lt_256 hb (o + 9)))]
  by_cases hc : (0 : Int) ≤ ↑(r.getD (o + 10) 0 + 1) - 1 ∧
      (↑(r.getD (o + 10) 0 + 1) : Int) - 1 ≤ 63
  · rw [if_pos hc]
    have hv : ((↑(r.getD (o + 10) 0 + 1) : Int) - 1).toNat = r.getD (o + 10) 0 := by omega
    rw [hv]
    have hle : r.getD (o + 10) 0 ≤ 63 := by omega
    exact writeMasked_of_getD r (o + 10) _ 63 (dwgs_id _ (getD_lt_256 hb (o + 10)) hle)
  · rw [if_neg hc]

theorem encTimOsc2_roundtrip (r : List Nat) (o : Nat) (hb : ∀ x ∈ r, x < 256)
    (hsem1 : 40 ≤ r.getD (o + 13) 0 &&& 127) (hsem2 : r.getD (o + 13) 0 &&& 127 ≤ 88) :
    encTimOsc2 (extractTimbre r o) o r = .ok r := by
  simp only [encTimOsc2, extractTimbre]
  rw [semitone_id _ (getD_lt_256 hb (o + 13)) hsem1 hsem2,
    off64_full_id _ (getD_lt_256 hb (o + 14))]
  simp only [except_bind_ok]
  rw [writeMasked_of_getD r (o + 12) _ 3 (osc2wave_id _ (getD_lt_256 hb (o + 12)))]
  rw [writeMasked_of_getD r (o + 12) _ 48 (osc2mod_id _ (getD_lt_256 hb (o + 12)))]
  rw [writeMasked_of_getD r (o + 13) _ 127 (wm127_id _ (getD_lt_256 hb (o + 13)))]
  rw [writeMasked_of_getD r (o + 14) _ 127 (wm127_id _ (getD_lt_256 hb (o + 14)))]
  rfl

theorem encTimMixer_roundtrip (r : List Nat) (o : Nat) (hb : ∀ x ∈ r, x < 256) :
    encTimMixer (extractTimbre r o) o r = r := by
  simp only [encTimMixer, extractTimbre]
  rw [set_of_getD _ _ _ (clampByte_id _ (getD_lt_256 hb (o + 16)))]
  rw [set_of_getD _ _ _ (clampByte_id _ (getD_lt_256 hb (o + 17)))]
  rw [set_of_getD _ _ _ (clampByte_id _ (getD_lt_256 hb (o + 18)))]

theorem encTimFilter_roundtrip (r : List Nat) (o : Nat) (hb : ∀ x ∈ r, x < 256) :
    encTimFilter (extractTimbre r o) o r = .ok r := by
  simp only [encTimFilter, extractTimbre]
  rw [off64_full_id _ (getD_lt_256 hb (o + 22)), off64_full_id _ (getD_lt_256 hb (o + 23)),
    off64_full_id _ (getD_lt_256 hb (o + 24))]
  simp only [except_bind_ok]
  rw [writeMasked_of_getD r (o + 19) _ 3 (filtwave_id _ (getD_lt_256 hb (o + 19)))]
  rw [set_of_getD _ _ _ (clampByte_id _ (getD_lt_256 hb (o + 20)))]
  rw [set_of_getD _ _ _ (clampByte_id _ (getD_lt_256 hb (o + 21)))]
  rw [writeMasked_of_getD r (o + 22) _ 127 (wm127_id _ (getD_lt_256 hb (o + 22)))]
  rw [writeMasked_of_getD r (o + 23) _ 127 (wm127_id _ (getD_lt_256 hb (o + 23)))]
  rw [writeMasked_of_getD r (o + 24) _ 127 (wm127_id _ (getD_lt_256 hb (o + 24)))]
  rfl

theorem encTimAmp_roundtrip (vm : String) (r : List Nat) (o : Nat)
    (hb : ∀ x ∈ r, x < 256)
    (hamp : if vm = "Single" ∨ vm = "Split" then
        r.getD (o + 27) 0 = 64 ||| (r.getD (o + 27) 0 &&& 1)
      else r.getD (o + 27) 0 >>> 6 &&& 1 = r.getD (o + 27) 0 &&& 1) :
    encTimAmp vm (extractTimbre r o) o r = .ok r := by
  simp only [encTimAmp, extractTimbre]
  rw [off64_full_id _ (getD_lt_256 hb (o + 26)), off64_full_id _ (getD_lt_256 hb (o + 28)),
    off64_full_id _ (getD_lt_256 hb (o + 29))]
  simp only [except_bind_ok]
  rw [set_of_getD _ _ _ (clampByte_id _ (getD_lt_256 hb (o + 25)))]
  rw [writeMasked_of_getD r (o + 26) _ 127 (wm127_id _ (getD_lt_256 hb (o + 26)))]
  by_cases hvm : vm = "Single" ∨ vm = "Split"
  · rw [if_pos hvm] at hamp
    rw [if_pos hvm]
    rw [set_of_getD _ _ _ (ampSingle_id _ (getD_lt_256 hb (o + 27)) hamp)]
    rw [writeMasked_of_getD r (o + 28) _ 127 (wm127_id _ (getD_lt_256 hb (o + 28)))]
    rw [writeMasked_of_getD r (o + 29) _ 127 (wm127_id _ (getD_lt_256 hb (o + 29)))]
    rfl
  · rw [if_neg hvm] at hamp
    rw [if_neg hvm]
    rw [set_of_getD _ _ _ (ampOther_id _ (getD_lt_256 hb (o + 27)) hamp)]
    rw [writeMasked_of_getD r (o + 28) _ 127 (wm127_id _ (getD_lt_256 hb (o + 28)))]
    rw [writeMasked_of_getD r (o + 29) _ 127 (wm127_id _ (getD_lt_256 hb (o + 29)))]
    rfl

theorem encTimEnvelopes_roundtrip (r : List Nat) (o : Nat) (hb : ∀ x ∈ r, x < 256) :
    encTimEnvelopes (extractTimbre r o) o r = r := by
  simp only [encTimEnvelopes, extractTimbre]
  rw [set_of_getD _ _ _ (clampByte_id _ (getD_lt_256 hb (o + 30)))]
  rw [set_of_getD _ _ _ (clampByte_id _ (getD_lt_256 hb (o + 31)))]
  rw [set_of_getD _ _ _ (clampByte_id _ (getD_lt_256 hb (o + 32)))]
  rw [set_of_getD _ _ _ (clampByte_id _ (getD_lt_256 hb (o + 33)))]
  rw [set_of_getD _ _ _ (clampByte_id _ (getD_lt_256 hb (o + 34)))]
  rw [set_of_getD _ _ _ (clampByte_id _ (getD_lt_256 hb (o + 35)))]
  rw [set_of_getD _ _ _ (clampByte_id _ (getD_lt_256 hb (o + 36)))]
  rw [set_of_getD _ _ _ (clampByte_id _ (getD_lt_256 hb (o + 37)))]

theorem encTimLFOs_roundtrip (r : List Nat) (o : Nat) (hb : ∀ x ∈ r, x < 256) :
    encTimLFOs (extractTimbre r o) o r = r := by
  simp only [encTimLFOs, extractTimbre]
  rw [writeMasked_of_getD r (o + 38) _ 3 (lfo1wave_id _ (getD_lt_256 hb (o + 38)))]
  rw [set_of_getD _ _ _ (clampByte_id _ (getD_lt_256 hb (o + 39)))]
  rw [set_of_getD _ _ _ (tempoByte_id _ (getD_lt_256 hb (o + 40)))]
  rw [writeMasked_of_getD r (o + 41) _ 3 (lfo2wave_id _ (getD_lt_256 hb (o + 41)))]
  rw [set_of_getD _ _ _ (clampByte_id _ (getD_lt_256 hb (o + 42)))]
  rw [set_of_getD _ _ _ (tempoByte_id _ (getD_lt_256 hb (o + 43)))]

theorem encTimRoute_roundtrip (r : List Nat) (o i : Nat) (hb : ∀ x ∈ r, x < 256)
    (hint : r.getD (o + 45 + i * 2) 0 < 128) :
    encTimRoute (extractRoute r o i) (o + 44 + i * 2) r = .ok r := by
  simp only [encTimRoute, extractRoute]
  rw [off64_full_id _ (getD_lt_256 hb (o + 45 + i * 2))]
  simp only [except_bind_ok]
  rw [set_of_getD _ _ _ (matrixByte_id _ (getD_lt_256 hb (o + 44 + i * 2)))]
  have hidx : o + 44 + i * 2 + 1 = o + 45 + i * 2 := by omega
  rw [hidx]
  rw [set_of_getD _ _ _ (inten_id _ (getD_lt_256 hb (o + 45 + i * 2)) hint)]
  rfl

theorem encTimMatrix_roundtrip (r : List Nat) (o : Nat) (hb : ∀ x ∈ r, x < 256)
    (h45 : r.getD (o + 45) 0 < 128) (h47 : r.getD (o + 47) 0 < 128)
    (h49 : r.getD (o + 49) 0 < 128) (h51 : r.getD (o + 51) 0 < 128) :
    encTimMatrix (extractTimbre r o) o r = .ok r := by
  have e0 : o + 45 + 0 * 2 = o + 45 := by omega
  have e1 : o + 45 + 1 * 2 = o + 47 := by omega
  have e2 : o + 45 + 2 * 2 = o + 49 := by omega
  have e3 : o + 45 + 3 * 2 = o + 51 := by omega
  have ht : (extractTimbre r o).patch1 = extractRoute r o 0 := rfl
  have ht2 : (extractTimbre r o).patch2 = extractRoute r o 1 := rfl
  have ht3 : (extractTimbre r o).patch3 = extractRoute r o 2 := rfl
  have ht4 : (extractTimbre r o).patch4 = extractRoute r o 3 := rfl
  rw [encTimMatrix, ht, ht2, ht3, ht4]
  rw [encTimRoute_roundtrip r o 0 hb (by rw [e0]; exact h45)]
  simp only [except_bind_ok]
  rw [encTimRoute_roundtrip r o 1 hb (by rw [e1]; exact h47)]
  simp only [except_bind_ok]
  rw [encTimRoute_roundtrip r o 2 hb (by rw [e2]; exact h49)]
  simp only [except_bind_ok]
  exact encTimRoute_roundtrip r o 3 hb (by rw [e3]; exact h51)

theorem encodeTimbre_roundtrip (vm : String) (r : List Nat) (o : Nat)
    (hb : ∀ x ∈ r, x < 256) (hsafe : timbreSafe r vm o) :
    encodeTimbre vm (some (extractTimbre r o)) o r = .ok r := by
  obtain ⟨⟨hsem1, hsem2⟩, hamp, h45, h47, h49, h51⟩ := hsafe
  simp only [encodeTimbre]
  rw [encTimVoice_roundtrip r o hb, encTimOsc1_roundtrip r o hb]
  rw [encTimOsc2_roundtrip r o hb hsem1 hsem2]
  simp only [except_bind_ok]
  rw [encTimMixer_roundtrip r o hb, encTimFilter_roundtrip r o hb]
  simp only [except_bind_ok]
  rw [encTimAmp_roundtrip vm r o hb hamp]
  simp only [except_bind_ok]
  rw [encTimEnvelopes_roundtrip r o hb, encTimLFOs_roundtrip r o hb]
  exact encTimMatrix_roundtrip r o hb h45 h47 h49 h51

theorem bfVoice_roundtrip (r : List Nat) (hb : ∀ x ∈ r, x < 256) :
    bfVoice (extract_full_parameters (parsePatch r)) r = r := by
  simp only [bfVoice, extract_full_parameters, parsePatch]
  exact writeMasked_of_getD r 16 _ 240 (voiceByte_id _ (getD_lt_256 hb 16))

theorem bfScale_roundtrip (r : List Nat) (hb : ∀ x ∈ r, x < 256) :
    bfScale (extract_full_parameters (parsePatch r)) r = r := by
  simp only [bfScale, extract_full_parameters, parsePatch]
  rw [set_of_getD _ _ _ (scaleByte_id _ (getD_lt_256 hb 17))]
  rw [set_of_getD _ _ _ (clampByte_id _ (getD_lt_256 hb 18))]

theorem bfDelay_roundtrip (r : List Nat) (hb : ∀ x ∈ r, x < 256)
    (h19 : r.getD 19 0 &&& 112 = 0) :
    bfDelay (extract_full_parameters (parsePatch r)) r = .ok r := by
  simp only [bfDelay, extract_full_parameters, parsePatch]
  rw [set_of_getD _ _ _ (delay19_id _ (getD_lt_256 hb 19) h19)]
  rw [set_of_getD _ _ _ (clampByte_id _ (getD_lt_256 hb 20))]
  rw [set_of_getD _ _ _ (clampByte_id _ (getD_lt_256 hb 21))]
  rw [delayType_id _ (getD_lt_256 hb 22)]
  rw [setByteChecked]
  rw [if_pos ⟨Int.ofNat_nonneg _, by exact_mod_cast getD_lt_256 hb 22⟩]
  rw [Int.toNat_natCast]
  rw [set_of_getD _ _ _ rfl]

theorem bfModFx_roundtrip (r : List Nat) (hb : ∀ x ∈ r, x < 256) :
    bfModFx (extract_full_parameters (parsePatch r)) r = .ok r := by
  simp only [bfModFx, extract_full_parameters, parsePatch]
  rw [set_of_getD _ _ _ (clampByte_id _ (getD_lt_256 hb 23))]
  rw [set_of_getD _ _ _ (clampByte_id _ (getD_lt_256 hb 24))]
  rw [modType_id _ (getD_lt_256 hb 25)]
  rw [setByteChecked]
  rw [if_pos ⟨Int.ofNat_nonneg _, by exact_mod_cast getD_lt_256 hb 25⟩]
  rw [Int.toNat_natCast]
  rw [set_of_getD _ _ _ rfl]

theorem bfEq_roundtrip (r : List Nat) (hb : ∀ x ∈ r, x < 256) :
    bfEq (extract_full_parameters (parsePatch r)) r = r := by
  simp only [bfEq, extract_full_parameters, parsePatch]
  rw [set_of_getD _ _ _ (clampByte_id _ (getD_lt_256 hb 26))]
  rw [set_of_getD _ _ _ (clampByte_id _ (getD_lt_256 hb 27))]
  rw [set_of_getD _ _ _ (clampByte_id _ (getD_lt_256 hb 28))]
  rw [set_of_getD _ _ _ (clampByte_id _ (getD_lt_256 hb 29))]

theorem bfArp_roundtrip (r : List Nat) (hb : ∀ x ∈ r, x < 256)
    (h32 : r.getD 32 0 &&& 14 = 0) :
    bfArp (extract_full_parameters (parsePatch r)) r = r := by
  simp only [bfArp, extract_full_parameters, parsePatch]
  rw [set_of_getD _ _ _ (tempoHi_id (r.getD 30 0) (r.getD 31 0)
    (getD_lt_256 hb 30) (getD_lt_256 hb 31))]
  rw [set_of_getD _ _ _ (tempoLo_id (r.getD 30 0) (r.getD 31 0) (getD_lt_256 hb 31))]
  rw [set_of_getD _ _ _ (arp32_id _ (getD_lt_256 hb 32) h32)]
  rw [set_of_getD _ _ _ (arp33_id _ (getD_lt_256 hb 33))]

theorem buildFields_roundtrip (r : List Nat) (hb : ∀ x ∈ r, x < 256)
    (hsafe : roundTripSafe r) :
    buildFields (extract_full_parameters (parsePatch r)) r = .ok r := by
  obtain ⟨-, h19, h32, hsafe1, hsafe2⟩ := hsafe
  have hvm : (extract_full_parameters (parsePatch r)).voice_mode
      = (parsePatch r).voice_mode := rfl
  have ht1 : (extract_full_parameters (parsePatch r)).timbre1
      = some (extractTimbre r 38) := rfl
  have ht2 : (extract_full_parameters (parsePatch r)).timbre2
      = if (parsePatch r).voice_mode = "Split" ∨ (parsePatch r).voice_mode = "Layer" then
          some (extractTimbre r 134)
        else none := rfl
  simp only [buildFields]
  rw [bfVoice_roundtrip r hb, bfScale_roundtrip r hb, bfDelay_roundtrip r hb h19]
  simp only [except_bind_ok]
  rw [bfModFx_roundtrip r hb]
  simp only [except_bind_ok]
  rw [bfEq_roundtrip r hb, bfArp_roundtrip r hb h32]
  rw [hvm, ht1]
  rw [encodeTimbre_roundtrip (parsePatch r).voice_mode r 38 hb hsafe1]
  simp only [except_bind_ok]
  by_cases hmode : (parsePatch r).voice_mode = "Split" ∨ (parsePatch r).voice_mode = "Layer"
  · rw [if_pos hmode, ht2, if_pos hmode]
    exact encodeTimbre_roundtrip (parsePatch r).voice_mode r 134 hb (hsafe2 hmode)
  · rw [if_neg hmode]
    rfl

/-- C1: amended round trip.  extract_full_parameters inverts the parse up to
the bits the codec drops: when the 254-byte buffer satisfies roundTripSafe
(trailing name whitespace is spaces or the name has a non-ASCII byte,
delay-sync byte 19 has bits 4-6 clear, arpeggiator byte 32 has bits 1-3
clear, each active timbre has its osc2 semitone inside the -24..24 encode
domain, its amp byte consistent with the voice mode, and its four
mod-matrix intensity bytes below 128), build_patch_bytes rebuilds the
original bytes exactly. -/
theorem roundtrip_amended (r : List Nat) (hlen : r.length = 254)
    (hb : ∀ x ∈ r, x < 256) (hsafe : roundTripSafe r) :
    buildPatchBytes (extract_full_parameters (parsePatch r)) = .ok r := by
  rw [buildPatchBytes, seedData_roundtrip r hlen hb, applyName_roundtrip r hlen hb hsafe.1]
  exact buildFields_roundtrip r hb hsafe

set_option maxRecDepth 40000 in
/-- C1 counterexample to the unamended claim: the all-zero 254-byte buffer
parses, but rebuilding fails with a range error because the decoded osc2
semitone -64 lies outside the -24..24 encode domain. -/
theorem roundtrip_cex :
    (List.replicate 254 0).length = 254 ∧ (∀ x ∈ List.replicate 254 0, x < 256) ∧
    buildPatchBytes (extract_full_parameters (parsePatch (List.replicate 254 0)))
      = .error "Offset-64 value out of range -24~24: -64" := by
  refine ⟨by decide, by decide, ?_⟩
  decide

set_option maxRecDepth 40000 in
/-- Witness: a concrete safe buffer (osc2 semitone byte 64, amp byte 0x40)
is rebuilt exactly. -/
theorem roundtrip_amended_witness :
    buildPatchBytes (extract_full_parameters (parsePatch
      (((List.replicate 254 0).set 51 64).set 65 64)))
      = .ok (((List.replicate 254 0).set 51 64).set 65 64) :=
  roundtrip_amended _ (by decide) (by decide)
    ⟨fun _ => by decide, by decide, by decide,
     ⟨⟨by decide, by decide⟩, by decide, by decide, by decide, by decide, by decide⟩,
     fun h => absurd h (by decide)⟩

end MS2000
